import Mathlib

/-!
# Verification of the ISIS `BundleObservation` observation-parameterization core

Shallow embedding of `BundleObservation.cpp` (the observation parameterization
subsystem of the photogrammetric bundle adjustment).  Doubles are modelled as
rationals (`ℚ`), `boost::ublas` / `std::vector` / `QList` vectors as `List ℚ`,
out-of-bounds accesses and null-pointer dereferences as `Option.none`
(undefined behavior has no defined result).  The external trajectory engine
(`SpicePosition` / `SpiceRotation`, whose sources are not part of this
repository) is modelled from the spec's collaborator contract: a record of
base time, time scale, degree and three coefficient vectors, with get/set
operations; the a-priori polynomial fit is kept opaque (a function parameter).
-/

set_option linter.unusedVariables false

/-- `DEG2RAD` constant from Isis `Constants.h` (`PI / 180`), as the decimal
double literal the source uses, read exactly into `ℚ`. -/
def DEG2RAD : ℚ := 3.14159265358979323846 / 180

/-- `RAD2DEG` constant from Isis `Constants.h` (`180 / PI`). -/
def RAD2DEG : ℚ := 180 / 3.14159265358979323846

/-- Modelled from the spec: the `Isis::Null` "unknown" sentinel for an
a-priori sigma (`SpecialPixel.h` is not part of this repository).  Any
distinctive huge negative value below `VALID_MIN8` serves; only its identity
and its classification by `IsSpecial` matter to this core. -/
def isisNull : ℚ := -(17976931348623157 : ℚ) * 10 ^ 292

/-- Modelled from the spec: the lower bound of valid (non-special) pixel
values; `isisNull` lies strictly below it. -/
def VALID_MIN8 : ℚ := -(17976931348623156 : ℚ) * 10 ^ 292

/-- Modelled from the spec: `Isis::IsSpecial` — a value is special iff it
lies below the valid minimum; the sentinel must render as "N/A" in reports. -/
def IsSpecial (d : ℚ) : Bool := decide (d < VALID_MIN8)

/-- Modelled from the spec (§6 TrajectorySource contract): the state of one
`SpicePosition` / `SpiceRotation` object — base time, time scale, polynomial
degree, the three per-axis (or per-angle) coefficient vectors, the configured
interpolation mode, and whether a polynomial has been established (fit or
assigned) yet. -/
structure SpiceTrajectory where
  baseTime : ℚ
  timeScale : ℚ
  degree : ℕ
  hasPoly : Bool
  coef1 : List ℚ
  coef2 : List ℚ
  coef3 : List ℚ
  interpType : ℤ
deriving Repr, DecidableEq

/-- `SetPolynomial(coef1, coef2, coef3, type)`: assign the coefficient
vectors and interpolation mode directly (no fit). -/
def SpiceTrajectory.setPolynomialCoeffs (t : SpiceTrajectory)
    (c1 c2 c3 : List ℚ) (interp : ℤ) : SpiceTrajectory :=
  { t with coef1 := c1, coef2 := c2, coef3 := c3, interpType := interp,
           hasPoly := true }

/-- `GetPolynomial(out1, out2, out3)`: the out-parameters are assigned the
trajectory's coefficient vectors wholesale (vector assignment replaces the
caller's buffers, as in the engine's `XC = p_coefficients[0]` contract). -/
def SpiceTrajectory.getPolynomial (t : SpiceTrajectory) :
    List ℚ × List ℚ × List ℚ :=
  (t.coef1, t.coef2, t.coef3)

/-- `SetOverrideBaseTime(baseTime, timeScale)`. -/
def SpiceTrajectory.setOverrideBaseTime (t : SpiceTrajectory)
    (b s : ℚ) : SpiceTrajectory :=
  { t with baseTime := b, timeScale := s }

/-- Resize a coefficient vector to `n` entries, truncating or zero-padding
(spec §4.3: lowering the degree "truncates/refits to only the coefficients
actually solved"). -/
def resizeCoef (n : ℕ) (c : List ℚ) : List ℚ :=
  c.take n ++ List.replicate (n - c.length) 0

/-- `SetPolynomialDegree(n)`: record the degree; when a polynomial is already
established, the coefficient vectors are re-sized to `n + 1` terms. -/
def SpiceTrajectory.setPolynomialDegree (t : SpiceTrajectory)
    (n : ℕ) : SpiceTrajectory :=
  if t.hasPoly then
    { t with degree := n, coef1 := resizeCoef (n + 1) t.coef1,
             coef2 := resizeCoef (n + 1) t.coef2,
             coef3 := resizeCoef (n + 1) t.coef3 }
  else
    { t with degree := n }

/-- `SetPolynomial(type)` — the a-priori fit.  Its numerics live in the
external trajectory engine and are opaque to this core (spec §2), so the fit
is a parameter `fit` mapping the pre-state and the interpolation mode to the
post-state; it marks the polynomial as established. -/
def SpiceTrajectory.fitPolynomial (t : SpiceTrajectory)
    (fit : SpiceTrajectory → ℤ → SpiceTrajectory) (interp : ℤ) :
    SpiceTrajectory :=
  { fit t interp with hasPoly := true }

/-- `BundleObservationSolveSettings::InstrumentPositionSolveOption`. -/
inductive InstrumentPositionSolveOption where
  | NoPositionFactors
  | PositionOnly
  | PositionVelocity
  | PositionVelocityAcceleration
  | AllPositionCoefficients
deriving Repr, DecidableEq

/-- `BundleObservationSolveSettings::InstrumentPointingSolveOption`. -/
inductive InstrumentPointingSolveOption where
  | NoPointingFactors
  | AnglesOnly
  | AnglesVelocity
  | AnglesVelocityAcceleration
  | AllPointingCoefficients
deriving Repr, DecidableEq

/-- Modelled from the spec (§3): the accessor surface of
`BundleObservationSolveSettings` (its implementation is not part of this
repository): solve options, numbers of solved coefficients, twist flag,
a-priori fit and solve degrees, the two a-priori sigma lists (entries may be
absent — a shorter list — or non-positive, meaning unconstrained), and the
opaque interpolation modes. -/
structure BundleObservationSolveSettings where
  instrumentPositionSolveOption : InstrumentPositionSolveOption
  instrumentPointingSolveOption : InstrumentPointingSolveOption
  numberCameraPositionCoefficientsSolved : ℕ
  numberCameraAngleCoefficientsSolved : ℕ
  solveTwist : Bool
  spkDegree : ℕ
  spkSolveDegree : ℕ
  ckDegree : ℕ
  ckSolveDegree : ℕ
  aprioriPositionSigmas : List ℚ
  aprioriPointingSigmas : List ℚ
  positionInterpolationType : ℤ
  pointingInterpolationType : ℤ
deriving Repr, DecidableEq

/-- Modelled from the spec (§3): the settings class keeps the solved
coefficient count consistent with the solve option — the count is zero
exactly when the option is the "none" option of its group. -/
def BundleObservationSolveSettings.WF (s : BundleObservationSolveSettings) : Prop :=
  (s.instrumentPositionSolveOption = InstrumentPositionSolveOption.NoPositionFactors ↔
      s.numberCameraPositionCoefficientsSolved = 0) ∧
  (s.instrumentPointingSolveOption = InstrumentPointingSolveOption.NoPointingFactors ↔
      s.numberCameraAngleCoefficientsSolved = 0)

instance (s : BundleObservationSolveSettings) : Decidable s.WF := by
  unfold BundleObservationSolveSettings.WF
  infer_instance

/-- A member image of an observation: its camera's instrument position and
instrument rotation are (possibly null) pointers into the trajectory arena. -/
structure BundleImage where
  positionPtr : Option ℕ
  rotationPtr : Option ℕ
deriving Repr, DecidableEq

/-- The arena of live trajectory-engine objects; pointers are indices.
Mutation through any alias is mutation of the arena slot. -/
abbrev SpiceHeap := List SpiceTrajectory

/-- `BundleObservation` state: the inherited `QVector` of member images, the
identity strings, the (possibly null) canonical instrument position/rotation
pointers, the four parameter vectors, the recorded parameter-name list, and
the shared solve settings (null until `setSolveSettings`). -/
structure BundleObservation where
  images : List BundleImage
  serialNumbers : List String
  imageNames : List String
  parameterNamesList : List String
  observationNumber : String
  instrumentId : String
  instrumentPosition : Option ℕ
  instrumentRotation : Option ℕ
  index : ℤ
  weights : List ℚ
  corrections : List ℚ
  aprioriSigmas : List ℚ
  adjustedSigmas : List ℚ
  solveSettings : Option BundleObservationSolveSettings
deriving Repr, DecidableEq

/-- `BundleObservation::numberPositionParameters`:
`3 * numberCameraPositionCoefficientsSolved`. -/
def numberPositionParameters (s : BundleObservationSolveSettings) : ℕ :=
  3 * s.numberCameraPositionCoefficientsSolved

/-- `BundleObservation::numberPointingParameters`: `3 * angleCoefficients`
when twist is solved, else `2 * angleCoefficients`. -/
def numberPointingParameters (s : BundleObservationSolveSettings) : ℕ :=
  if s.solveTwist then 3 * s.numberCameraAngleCoefficientsSolved
  else 2 * s.numberCameraAngleCoefficientsSolved

/-- `BundleObservation::numberParameters`: position plus pointing counts. -/
def numberParameters (s : BundleObservationSolveSettings) : ℕ :=
  numberPositionParameters s + numberPointingParameters s

/-- One iteration of the sigma/weight assignment loops of
`BundleObservation::initParameterWeights` (source lines 523–536 and
540–553): at flat slot `off + i`, residue `i % terms` selects the
value / rate / acceleration sigma and weight; the sigma list is read with
`QList::at` (out of bounds has no defined result) and both the
`m_aprioriSigmas` and `m_weights` slots are written. -/
def weightLoopStep (sig : List ℚ) (w0 w1 w2 : ℚ) (terms off i : ℕ)
    (ws ss : List ℚ) : Option (List ℚ × List ℚ) :=
  if i % terms = 0 then
    match sig[0]? with
    | none => none
    | some v =>
      if off + i < ss.length ∧ off + i < ws.length then
        some (ws.set (off + i) w0, ss.set (off + i) v)
      else none
  else if i % terms = 1 then
    match sig[1]? with
    | none => none
    | some v =>
      if off + i < ss.length ∧ off + i < ws.length then
        some (ws.set (off + i) w1, ss.set (off + i) v)
      else none
  else if i % terms = 2 then
    match sig[2]? with
    | none => none
    | some v =>
      if off + i < ss.length ∧ off + i < ws.length then
        some (ws.set (off + i) w2, ss.set (off + i) v)
      else none
  else some (ws, ss)

/-- The sigma/weight assignment loop of
`BundleObservation::initParameterWeights`, iterating `i = 0, …, k-1` over
the slots `off + i` of the weight and a-priori-sigma vectors. -/
def weightLoop (sig : List ℚ) (w0 w1 w2 : ℚ) (terms off : ℕ) :
    ℕ → List ℚ → List ℚ → Option (List ℚ × List ℚ)
  | 0, ws, ss => some (ws, ss)
  | k + 1, ws, ss =>
    match weightLoop sig w0 w1 w2 terms off k ws ss with
    | none => none
    | some st => weightLoopStep sig w0 w1 w2 terms off k st.1 st.2

/-- `BundleObservation::initParameterWeights` over the weight and
a-priori-sigma vectors: compute the six candidate weights from the sigma
lists (positive sigma ⇒ `1/(σ²·1.0e-6)` for position, `1/(σ²·DEG2RAD²)`
for pointing; otherwise the weight stays `0.0`), then run the two
assignment loops.  The C++ always returns `true`; `none` models an
out-of-bounds access (undefined behavior), not a `false` return. -/
def initParameterWeights (s : BundleObservationSolveSettings)
    (ws ss : List ℚ) : Option (List ℚ × List ℚ) :=
  let aprioriPointingSigmas := s.aprioriPointingSigmas
  let aprioriPositionSigmas := s.aprioriPositionSigmas
  let nCamPosCoeffsSolved := 3 * s.numberCameraPositionCoefficientsSolved
  let nCamAngleCoeffsSolved :=
    if s.solveTwist then 3 * s.numberCameraAngleCoefficientsSolved
    else 2 * s.numberCameraAngleCoefficientsSolved
  let posWeight : ℚ :=
    if 1 ≤ aprioriPositionSigmas.length ∧ 0 < aprioriPositionSigmas.getD 0 0 then
      1 / (aprioriPositionSigmas.getD 0 0 * aprioriPositionSigmas.getD 0 0 * 1.0e-6)
    else 0
  let velWeight : ℚ :=
    if 2 ≤ aprioriPositionSigmas.length ∧ 0 < aprioriPositionSigmas.getD 1 0 then
      1 / (aprioriPositionSigmas.getD 1 0 * aprioriPositionSigmas.getD 1 0 * 1.0e-6)
    else 0
  let accWeight : ℚ :=
    if 3 ≤ aprioriPositionSigmas.length ∧ 0 < aprioriPositionSigmas.getD 2 0 then
      1 / (aprioriPositionSigmas.getD 2 0 * aprioriPositionSigmas.getD 2 0 * 1.0e-6)
    else 0
  let angWeight : ℚ :=
    if 1 ≤ aprioriPointingSigmas.length ∧ 0 < aprioriPointingSigmas.getD 0 0 then
      1 / (aprioriPointingSigmas.getD 0 0 * aprioriPointingSigmas.getD 0 0 * DEG2RAD * DEG2RAD)
    else 0
  let angVelWeight : ℚ :=
    if 2 ≤ aprioriPointingSigmas.length ∧ 0 < aprioriPointingSigmas.getD 1 0 then
      1 / (aprioriPointingSigmas.getD 1 0 * aprioriPointingSigmas.getD 1 0 * DEG2RAD * DEG2RAD)
    else 0
  let angAccWeight : ℚ :=
    if 3 ≤ aprioriPointingSigmas.length ∧ 0 < aprioriPointingSigmas.getD 2 0 then
      1 / (aprioriPointingSigmas.getD 2 0 * aprioriPointingSigmas.getD 2 0 * DEG2RAD * DEG2RAD)
    else 0
  let nSpkTerms := s.numberCameraPositionCoefficientsSolved
  let nCkTerms := s.numberCameraAngleCoefficientsSolved
  (weightLoop aprioriPositionSigmas posWeight velWeight accWeight
      nSpkTerms 0 nCamPosCoeffsSolved ws ss).bind (fun st1 =>
    weightLoop aprioriPointingSigmas angWeight angVelWeight angAccWeight
      nCkTerms nCamPosCoeffsSolved nCamAngleCoeffsSolved st1.1 st1.2)

/-- `BundleObservation::setSolveSettings`: store a private copy of the
settings, compute the parameter count
`3·p + 2·a (+ a if twist and a ≥ 1)`, size `m_weights` / `m_corrections` /
`m_adjustedSigmas` to zero and `m_aprioriSigmas` to the `Isis::Null`
sentinel, then run `initParameterWeights`.  Returns `true` on the defined
path (the `initParameterWeights`-returns-`false` branch is dead code). -/
def setSolveSettings (o : BundleObservation)
    (solveSettings : BundleObservationSolveSettings) :
    Option (Bool × BundleObservation) :=
  let nCameraAngleCoefficients := solveSettings.numberCameraAngleCoefficientsSolved
  let nCameraPositionCoefficients := solveSettings.numberCameraPositionCoefficientsSolved
  let nParameters :=
    3 * nCameraPositionCoefficients + 2 * nCameraAngleCoefficients +
      (if 1 ≤ nCameraAngleCoefficients ∧ solveSettings.solveTwist then
        nCameraAngleCoefficients
      else 0)
  let weights := List.replicate nParameters (0 : ℚ)
  let corrections := List.replicate nParameters (0 : ℚ)
  let adjustedSigmas := List.replicate nParameters (0 : ℚ)
  let aprioriSigmas := List.replicate nParameters isisNull
  (initParameterWeights solveSettings weights aprioriSigmas).bind (fun st =>
    some (true,
      { o with solveSettings := some solveSettings,
               weights := st.1,
               corrections := corrections,
               adjustedSigmas := adjustedSigmas,
               aprioriSigmas := st.2 }))

/-- `BundleObservation::BundleObservation()`: the default-constructed
observation (all containers cleared, pointers null, index `0`). -/
def defaultBundleObservation : BundleObservation :=
  { images := [], serialNumbers := [], imageNames := [], parameterNamesList := [],
    observationNumber := "", instrumentId := "", instrumentPosition := none,
    instrumentRotation := none, index := 0, weights := [], corrections := [],
    aprioriSigmas := [], adjustedSigmas := [], solveSettings := none }

/-- The weight the source computes for position sub-category `r`
(`0` value, `1` rate, `2` acceleration): `1/(σ²·1.0e-6)` when the sigma is
present and strictly positive, else `0`. -/
def positionWeightOf (s : BundleObservationSolveSettings) : ℕ → ℚ
  | 0 =>
    if 1 ≤ s.aprioriPositionSigmas.length ∧ 0 < s.aprioriPositionSigmas.getD 0 0 then
      1 / (s.aprioriPositionSigmas.getD 0 0 * s.aprioriPositionSigmas.getD 0 0 * 1.0e-6)
    else 0
  | 1 =>
    if 2 ≤ s.aprioriPositionSigmas.length ∧ 0 < s.aprioriPositionSigmas.getD 1 0 then
      1 / (s.aprioriPositionSigmas.getD 1 0 * s.aprioriPositionSigmas.getD 1 0 * 1.0e-6)
    else 0
  | 2 =>
    if 3 ≤ s.aprioriPositionSigmas.length ∧ 0 < s.aprioriPositionSigmas.getD 2 0 then
      1 / (s.aprioriPositionSigmas.getD 2 0 * s.aprioriPositionSigmas.getD 2 0 * 1.0e-6)
    else 0
  | _ => 0

/-- The weight the source computes for pointing sub-category `r`:
`1/(σ²·DEG2RAD²)` when the sigma is present and strictly positive, else `0`. -/
def pointingWeightOf (s : BundleObservationSolveSettings) : ℕ → ℚ
  | 0 =>
    if 1 ≤ s.aprioriPointingSigmas.length ∧ 0 < s.aprioriPointingSigmas.getD 0 0 then
      1 / (s.aprioriPointingSigmas.getD 0 0 * s.aprioriPointingSigmas.getD 0 0 * DEG2RAD * DEG2RAD)
    else 0
  | 1 =>
    if 2 ≤ s.aprioriPointingSigmas.length ∧ 0 < s.aprioriPointingSigmas.getD 1 0 then
      1 / (s.aprioriPointingSigmas.getD 1 0 * s.aprioriPointingSigmas.getD 1 0 * DEG2RAD * DEG2RAD)
    else 0
  | 2 =>
    if 3 ≤ s.aprioriPointingSigmas.length ∧ 0 < s.aprioriPointingSigmas.getD 2 0 then
      1 / (s.aprioriPointingSigmas.getD 2 0 * s.aprioriPointingSigmas.getD 2 0 * DEG2RAD * DEG2RAD)
    else 0
  | _ => 0

theorem weightLoopStep_some {sig : List ℚ} {w0 w1 w2 : ℚ} {terms off i : ℕ}
    {ws ss ws' ss' : List ℚ}
    (h : weightLoopStep sig w0 w1 w2 terms off i ws ss = some (ws', ss')) :
    ws'.length = ws.length ∧ ss'.length = ss.length ∧
    (∀ j, j ≠ off + i → ws'[j]? = ws[j]? ∧ ss'[j]? = ss[j]?) ∧
    (i % terms = 0 → ws'[off + i]? = some w0 ∧ ss'[off + i]? = sig[0]?) ∧
    (i % terms = 1 → ws'[off + i]? = some w1 ∧ ss'[off + i]? = sig[1]?) ∧
    (i % terms = 2 → ws'[off + i]? = some w2 ∧ ss'[off + i]? = sig[2]?) ∧
    (3 ≤ i % terms → ws' = ws ∧ ss' = ss) := by
  unfold weightLoopStep at h
  by_cases h0 : i % terms = 0
  · rw [if_pos h0] at h
    cases hs : sig[0]? with
    | none => rw [hs] at h; exact absurd h (by simp)
    | some v =>
      rw [hs] at h
      dsimp only at h
      by_cases hb : off + i < ss.length ∧ off + i < ws.length
      case neg => rw [if_neg hb] at h; exact absurd h (by simp)
      case pos =>
        rw [if_pos hb] at h
        simp only [Option.some.injEq, Prod.mk.injEq] at h
        obtain ⟨hw, hsg⟩ := h
        subst hw; subst hsg
        refine ⟨List.length_set .., List.length_set .., ?_, ?_, ?_, ?_, ?_⟩
        · intro j hj
          exact ⟨List.getElem?_set_ne (fun he => hj he.symm),
                 List.getElem?_set_ne (fun he => hj he.symm)⟩
        · intro _
          exact ⟨List.getElem?_set_eq_of_lt w0 hb.2, by
            rw [List.getElem?_set_eq_of_lt v hb.1]⟩
        · intro h1; omega
        · intro h2; omega
        · intro h3; omega
  · by_cases h1 : i % terms = 1
    · rw [if_neg h0, if_pos h1] at h
      cases hs : sig[1]? with
      | none => rw [hs] at h; exact absurd h (by simp)
      | some v =>
        rw [hs] at h
        dsimp only at h
        by_cases hb : off + i < ss.length ∧ off + i < ws.length
        case neg => rw [if_neg hb] at h; exact absurd h (by simp)
        case pos =>
          rw [if_pos hb] at h
          simp only [Option.some.injEq, Prod.mk.injEq] at h
          obtain ⟨hw, hsg⟩ := h
          subst hw; subst hsg
          refine ⟨List.length_set .., List.length_set .., ?_, ?_, ?_, ?_, ?_⟩
          · intro j hj
            exact ⟨List.getElem?_set_ne (fun he => hj he.symm),
                   List.getElem?_set_ne (fun he => hj he.symm)⟩
          · intro hc; omega
          · intro _
            exact ⟨List.getElem?_set_eq_of_lt w1 hb.2, by
              rw [List.getElem?_set_eq_of_lt v hb.1]⟩
          · intro hc; omega
          · intro hc; omega
    · by_cases h2 : i % terms = 2
      · rw [if_neg h0, if_neg h1, if_pos h2] at h
        cases hs : sig[2]? with
        | none => rw [hs] at h; exact absurd h (by simp)
        | some v =>
          rw [hs] at h
          dsimp only at h
          by_cases hb : off + i < ss.length ∧ off + i < ws.length
          case neg => rw [if_neg hb] at h; exact absurd h (by simp)
          case pos =>
            rw [if_pos hb] at h
            simp only [Option.some.injEq, Prod.mk.injEq] at h
            obtain ⟨hw, hsg⟩ := h
            subst hw; subst hsg
            refine ⟨List.length_set .., List.length_set .., ?_, ?_, ?_, ?_, ?_⟩
            · intro j hj
              exact ⟨List.getElem?_set_ne (fun he => hj he.symm),
                     List.getElem?_set_ne (fun he => hj he.symm)⟩
            · intro hc; omega
            · intro hc; omega
            · intro _
              exact ⟨List.getElem?_set_eq_of_lt w2 hb.2, by
                rw [List.getElem?_set_eq_of_lt v hb.1]⟩
            · intro hc; omega
      · rw [if_neg h0, if_neg h1, if_neg h2] at h
        simp only [Option.some.injEq, Prod.mk.injEq] at h
        obtain ⟨hw, hsg⟩ := h
        subst hw; subst hsg
        refine ⟨rfl, rfl, fun j _ => ⟨rfl, rfl⟩, ?_, ?_, ?_, fun _ => ⟨rfl, rfl⟩⟩
        · intro hc; omega
        · intro hc; omega
        · intro hc; omega

theorem weightLoop_length {sig : List ℚ} {w0 w1 w2 : ℚ} {terms off : ℕ} :
    ∀ {k : ℕ} {ws ss ws' ss' : List ℚ},
    weightLoop sig w0 w1 w2 terms off k ws ss = some (ws', ss') →
    ws'.length = ws.length ∧ ss'.length = ss.length := by
  intro k
  induction k with
  | zero =>
    intro ws ss ws' ss' h
    simp only [weightLoop, Option.some.injEq, Prod.mk.injEq] at h
    obtain ⟨h1, h2⟩ := h
    subst h1; subst h2
    exact ⟨rfl, rfl⟩
  | succ k ih =>
    intro ws ss ws' ss' h
    simp only [weightLoop] at h
    cases hm : weightLoop sig w0 w1 w2 terms off k ws ss with
    | none => rw [hm] at h; exact absurd h (by simp)
    | some st =>
      rw [hm] at h
      have hm2 : weightLoop sig w0 w1 w2 terms off k ws ss = some (st.1, st.2) := by
        rw [hm]
      obtain ⟨l1, l2⟩ := ih hm2
      obtain ⟨m1, m2, _⟩ := weightLoopStep_some h
      exact ⟨m1.trans l1, m2.trans l2⟩

theorem weightLoop_total (sig : List ℚ) (w0 w1 w2 : ℚ) (terms off : ℕ) :
    ∀ (k : ℕ) (ws ss : List ℚ),
    (∀ i, i < k → i % terms < 3 → i % terms < sig.length) →
    off + k ≤ ws.length → off + k ≤ ss.length →
    ∃ ws' ss', weightLoop sig w0 w1 w2 terms off k ws ss = some (ws', ss') := by
  intro k
  induction k with
  | zero =>
    intro ws ss _ _ _
    exact ⟨ws, ss, rfl⟩
  | succ k ih =>
    intro ws ss hcov hws hss
    obtain ⟨w1', s1', hm⟩ := ih ws ss
      (fun i hi => hcov i (Nat.lt_succ_of_lt hi)) (by omega) (by omega)
    obtain ⟨lw, ls⟩ := weightLoop_length hm
    have hb : off + k < s1'.length ∧ off + k < w1'.length := by omega
    have hstep : ∃ a b, weightLoopStep sig w0 w1 w2 terms off k w1' s1' = some (a, b) := by
      unfold weightLoopStep
      by_cases h0 : k % terms = 0
      · rw [if_pos h0]
        have hlen : 0 < sig.length := by
          have := hcov k (Nat.lt_succ_self k) (by omega)
          omega
        cases hs : sig[0]? with
        | none => rw [List.getElem?_eq_none_iff] at hs; omega
        | some v =>
          refine ⟨w1'.set (off + k) w0, s1'.set (off + k) v, ?_⟩
          dsimp only
          rw [if_pos hb]
      · by_cases h1 : k % terms = 1
        · rw [if_neg h0, if_pos h1]
          have hlen : 1 < sig.length := by
            have := hcov k (Nat.lt_succ_self k) (by omega)
            omega
          cases hs : sig[1]? with
          | none => rw [List.getElem?_eq_none_iff] at hs; omega
          | some v =>
            refine ⟨w1'.set (off + k) w1, s1'.set (off + k) v, ?_⟩
            dsimp only
            rw [if_pos hb]
        · by_cases h2 : k % terms = 2
          · rw [if_neg h0, if_neg h1, if_pos h2]
            have hlen : 2 < sig.length := by
              have := hcov k (Nat.lt_succ_self k) (by omega)
              omega
            cases hs : sig[2]? with
            | none => rw [List.getElem?_eq_none_iff] at hs; omega
            | some v =>
              refine ⟨w1'.set (off + k) w2, s1'.set (off + k) v, ?_⟩
              dsimp only
              rw [if_pos hb]
          · rw [if_neg h0, if_neg h1, if_neg h2]
            exact ⟨w1', s1', rfl⟩
    obtain ⟨a, b, hst⟩ := hstep
    refine ⟨a, b, ?_⟩
    simp only [weightLoop]
    rw [hm]
    exact hst

theorem weightLoop_char {sig : List ℚ} {w0 w1 w2 : ℚ} {terms off : ℕ} :
    ∀ {k : ℕ} {ws ss ws' ss' : List ℚ},
    weightLoop sig w0 w1 w2 terms off k ws ss = some (ws', ss') →
    (∀ j, (j < off ∨ off + k ≤ j) → ws'[j]? = ws[j]? ∧ ss'[j]? = ss[j]?) ∧
    (∀ j, off ≤ j → j < off + k →
      ((j - off) % terms = 0 → ws'[j]? = some w0 ∧ ss'[j]? = sig[0]?) ∧
      ((j - off) % terms = 1 → ws'[j]? = some w1 ∧ ss'[j]? = sig[1]?) ∧
      ((j - off) % terms = 2 → ws'[j]? = some w2 ∧ ss'[j]? = sig[2]?) ∧
      (3 ≤ (j - off) % terms → ws'[j]? = ws[j]? ∧ ss'[j]? = ss[j]?)) := by
  intro k
  induction k with
  | zero =>
    intro ws ss ws' ss' h
    simp only [weightLoop, Option.some.injEq, Prod.mk.injEq] at h
    obtain ⟨h1, h2⟩ := h
    subst h1; subst h2
    exact ⟨fun j _ => ⟨rfl, rfl⟩, fun j hj1 hj2 => absurd hj2 (by omega)⟩
  | succ k ih =>
    intro ws ss ws' ss' h
    simp only [weightLoop] at h
    cases hm : weightLoop sig w0 w1 w2 terms off k ws ss with
    | none => rw [hm] at h; exact absurd h (by simp)
    | some st =>
      rw [hm] at h
      have hm' : weightLoop sig w0 w1 w2 terms off k ws ss = some (st.1, st.2) := by
        rw [hm]
      obtain ⟨ifr, ihit⟩ := ih hm'
      obtain ⟨_, _, sfr, s0, s1, s2, s3⟩ := weightLoopStep_some h
      constructor
      · intro j hj
        have hne : j ≠ off + k := by omega
        obtain ⟨f1, f2⟩ := sfr j hne
        obtain ⟨g1, g2⟩ := ifr j (by omega)
        exact ⟨f1.trans g1, f2.trans g2⟩
      · intro j hj1 hj2
        by_cases hjk : j = off + k
        · subst hjk
          have hsub : off + k - off = k := by omega
          rw [hsub]
          refine ⟨fun hr => s0 hr, fun hr => s1 hr, fun hr => s2 hr, fun hr => ?_⟩
          obtain ⟨e1, e2⟩ := s3 hr
          subst e1; subst e2
          exact ifr (off + k) (by omega)
        · have hlt : j < off + k := by omega
          obtain ⟨f1, f2⟩ := sfr j hjk
          obtain ⟨c0, c1, c2, c3⟩ := ihit j hj1 hlt
          refine ⟨fun hr => ?_, fun hr => ?_, fun hr => ?_, fun hr => ?_⟩
          · obtain ⟨d1, d2⟩ := c0 hr
            exact ⟨f1.trans d1, f2.trans d2⟩
          · obtain ⟨d1, d2⟩ := c1 hr
            exact ⟨f1.trans d1, f2.trans d2⟩
          · obtain ⟨d1, d2⟩ := c2 hr
            exact ⟨f1.trans d1, f2.trans d2⟩
          · obtain ⟨d1, d2⟩ := c3 hr
            exact ⟨f1.trans d1, f2.trans d2⟩

theorem nParametersFormula_eq (s : BundleObservationSolveSettings) :
    3 * s.numberCameraPositionCoefficientsSolved + 2 * s.numberCameraAngleCoefficientsSolved +
      (if 1 ≤ s.numberCameraAngleCoefficientsSolved ∧ s.solveTwist then
        s.numberCameraAngleCoefficientsSolved
      else 0) = numberParameters s := by
  unfold numberParameters numberPositionParameters numberPointingParameters
  cases ht : s.solveTwist <;> simp [ht] <;> (try split) <;> omega

theorem numberParameters_split (s : BundleObservationSolveSettings) :
    numberParameters s = numberPositionParameters s + numberPointingParameters s := rfl

theorem initParameterWeights_success_char {s : BundleObservationSolveSettings}
    {ws ss ws' ss' : List ℚ}
    (h : initParameterWeights s ws ss = some (ws', ss')) :
    ws'.length = ws.length ∧ ss'.length = ss.length ∧
    (∀ j, numberParameters s ≤ j → ws'[j]? = ws[j]? ∧ ss'[j]? = ss[j]?) ∧
    (∀ j, j < numberPositionParameters s →
      (j % s.numberCameraPositionCoefficientsSolved = 0 →
        ws'[j]? = some (positionWeightOf s 0) ∧
        ss'[j]? = s.aprioriPositionSigmas[0]?) ∧
      (j % s.numberCameraPositionCoefficientsSolved = 1 →
        ws'[j]? = some (positionWeightOf s 1) ∧
        ss'[j]? = s.aprioriPositionSigmas[1]?) ∧
      (j % s.numberCameraPositionCoefficientsSolved = 2 →
        ws'[j]? = some (positionWeightOf s 2) ∧
        ss'[j]? = s.aprioriPositionSigmas[2]?) ∧
      (3 ≤ j % s.numberCameraPositionCoefficientsSolved →
        ws'[j]? = ws[j]? ∧ ss'[j]? = ss[j]?)) ∧
    (∀ j, numberPositionParameters s ≤ j → j < numberParameters s →
      ((j - numberPositionParameters s) % s.numberCameraAngleCoefficientsSolved = 0 →
        ws'[j]? = some (pointingWeightOf s 0) ∧
        ss'[j]? = s.aprioriPointingSigmas[0]?) ∧
      ((j - numberPositionParameters s) % s.numberCameraAngleCoefficientsSolved = 1 →
        ws'[j]? = some (pointingWeightOf s 1) ∧
        ss'[j]? = s.aprioriPointingSigmas[1]?) ∧
      ((j - numberPositionParameters s) % s.numberCameraAngleCoefficientsSolved = 2 →
        ws'[j]? = some (pointingWeightOf s 2) ∧
        ss'[j]? = s.aprioriPointingSigmas[2]?) ∧
      (3 ≤ (j - numberPositionParameters s) % s.numberCameraAngleCoefficientsSolved →
        ws'[j]? = ws[j]? ∧ ss'[j]? = ss[j]?)) := by
  simp only [initParameterWeights, Option.bind_eq_some] at h
  obtain ⟨⟨w1, s1⟩, hp, hq⟩ := h
  obtain ⟨lp1, lp2⟩ := weightLoop_length hp
  obtain ⟨lq1, lq2⟩ := weightLoop_length hq
  obtain ⟨pfr, phit⟩ := weightLoop_char hp
  obtain ⟨qfr, qhit⟩ := weightLoop_char hq
  have hsplit : numberParameters s =
      3 * s.numberCameraPositionCoefficientsSolved +
      (if s.solveTwist then 3 * s.numberCameraAngleCoefficientsSolved
       else 2 * s.numberCameraAngleCoefficientsSolved) := rfl
  have hposp : numberPositionParameters s =
      3 * s.numberCameraPositionCoefficientsSolved := rfl
  refine ⟨lq1.trans lp1, lq2.trans lp2, ?_, ?_, ?_⟩
  · intro j hj
    obtain ⟨e1, e2⟩ := qfr j (Or.inr (by omega))
    obtain ⟨f1, f2⟩ := pfr j (Or.inr (by omega))
    exact ⟨e1.trans f1, e2.trans f2⟩
  · intro j hj
    obtain ⟨e1, e2⟩ := qfr j (Or.inl (by omega))
    obtain ⟨c0, c1, c2, c3⟩ := phit j (by omega) (by omega)
    have hj0 : j - 0 = j := by omega
    rw [hj0] at c0 c1 c2 c3
    refine ⟨fun hr => ?_, fun hr => ?_, fun hr => ?_, fun hr => ?_⟩
    · obtain ⟨d1, d2⟩ := c0 hr
      exact ⟨e1.trans d1, e2.trans d2⟩
    · obtain ⟨d1, d2⟩ := c1 hr
      exact ⟨e1.trans d1, e2.trans d2⟩
    · obtain ⟨d1, d2⟩ := c2 hr
      exact ⟨e1.trans d1, e2.trans d2⟩
    · obtain ⟨d1, d2⟩ := c3 hr
      exact ⟨e1.trans d1, e2.trans d2⟩
  · intro j hj1 hj2
    have hq1 : 3 * s.numberCameraPositionCoefficientsSolved ≤ j := by omega
    have hq2 : j < 3 * s.numberCameraPositionCoefficientsSolved +
        (if s.solveTwist then 3 * s.numberCameraAngleCoefficientsSolved
         else 2 * s.numberCameraAngleCoefficientsSolved) := by omega
    obtain ⟨c0, c1, c2, c3⟩ := qhit j hq1 hq2
    obtain ⟨f1, f2⟩ := pfr j (Or.inr (by omega))
    rw [hposp]
    refine ⟨fun hr => c0 hr, fun hr => c1 hr, fun hr => c2 hr, fun hr => ?_⟩
    obtain ⟨d1, d2⟩ := c3 hr
    exact ⟨d1.trans f1, d2.trans f2⟩

theorem setSolveSettings_success_char {o : BundleObservation}
    {s : BundleObservationSolveSettings} {b : Bool} {o' : BundleObservation}
    (h : setSolveSettings o s = some (b, o')) :
    b = true ∧
    o'.solveSettings = some s ∧
    o'.weights.length = numberParameters s ∧
    o'.aprioriSigmas.length = numberParameters s ∧
    o'.corrections = List.replicate (numberParameters s) 0 ∧
    o'.adjustedSigmas = List.replicate (numberParameters s) 0 ∧
    (∀ j, j < numberPositionParameters s →
      (j % s.numberCameraPositionCoefficientsSolved = 0 →
        o'.weights[j]? = some (positionWeightOf s 0) ∧
        o'.aprioriSigmas[j]? = s.aprioriPositionSigmas[0]?) ∧
      (j % s.numberCameraPositionCoefficientsSolved = 1 →
        o'.weights[j]? = some (positionWeightOf s 1) ∧
        o'.aprioriSigmas[j]? = s.aprioriPositionSigmas[1]?) ∧
      (j % s.numberCameraPositionCoefficientsSolved = 2 →
        o'.weights[j]? = some (positionWeightOf s 2) ∧
        o'.aprioriSigmas[j]? = s.aprioriPositionSigmas[2]?) ∧
      (3 ≤ j % s.numberCameraPositionCoefficientsSolved →
        o'.weights[j]? = some 0 ∧ o'.aprioriSigmas[j]? = some isisNull)) ∧
    (∀ j, numberPositionParameters s ≤ j → j < numberParameters s →
      ((j - numberPositionParameters s) % s.numberCameraAngleCoefficientsSolved = 0 →
        o'.weights[j]? = some (pointingWeightOf s 0) ∧
        o'.aprioriSigmas[j]? = s.aprioriPointingSigmas[0]?) ∧
      ((j - numberPositionParameters s) % s.numberCameraAngleCoefficientsSolved = 1 →
        o'.weights[j]? = some (pointingWeightOf s 1) ∧
        o'.aprioriSigmas[j]? = s.aprioriPointingSigmas[1]?) ∧
      ((j - numberPositionParameters s) % s.numberCameraAngleCoefficientsSolved = 2 →
        o'.weights[j]? = some (pointingWeightOf s 2) ∧
        o'.aprioriSigmas[j]? = s.aprioriPointingSigmas[2]?) ∧
      (3 ≤ (j - numberPositionParameters s) % s.numberCameraAngleCoefficientsSolved →
        o'.weights[j]? = some 0 ∧ o'.aprioriSigmas[j]? = some isisNull)) := by
  simp only [setSolveSettings, Option.bind_eq_some] at h
  obtain ⟨⟨nws, nss⟩, hw, he⟩ := h
  simp only [Option.some.injEq, Prod.mk.injEq] at he
  obtain ⟨hb, ho⟩ := he
  subst hb
  have hF := nParametersFormula_eq s
  obtain ⟨l1, l2, fr, cpos, cpnt⟩ := initParameterWeights_success_char hw
  have hrepl : ∀ j, j < numberParameters s →
      (List.replicate (3 * s.numberCameraPositionCoefficientsSolved +
        2 * s.numberCameraAngleCoefficientsSolved +
        (if 1 ≤ s.numberCameraAngleCoefficientsSolved ∧ s.solveTwist then
          s.numberCameraAngleCoefficientsSolved
        else 0)) (0 : ℚ))[j]? = some 0 := by
    intro j hj
    rw [List.getElem?_replicate, if_pos (by omega)]
  have hrepl2 : ∀ j, j < numberParameters s →
      (List.replicate (3 * s.numberCameraPositionCoefficientsSolved +
        2 * s.numberCameraAngleCoefficientsSolved +
        (if 1 ≤ s.numberCameraAngleCoefficientsSolved ∧ s.solveTwist then
          s.numberCameraAngleCoefficientsSolved
        else 0)) isisNull)[j]? = some isisNull := by
    intro j hj
    rw [List.getElem?_replicate, if_pos (by omega)]
  have hnp : numberPositionParameters s ≤ numberParameters s := by
    rw [numberParameters_split s]; omega
  subst ho
  refine ⟨rfl, rfl, ?_, ?_, ?_, ?_, ?_, ?_⟩
  · simpa [List.length_replicate, hF] using l1
  · simpa [List.length_replicate, hF] using l2
  · rw [hF]
  · rw [hF]
  · intro j hj
    obtain ⟨c0, c1, c2, c3⟩ := cpos j hj
    refine ⟨c0, c1, c2, fun hr => ?_⟩
    obtain ⟨d1, d2⟩ := c3 hr
    exact ⟨d1.trans (hrepl j (by omega)), d2.trans (hrepl2 j (by omega))⟩
  · intro j hj1 hj2
    obtain ⟨c0, c1, c2, c3⟩ := cpnt j hj1 hj2
    refine ⟨c0, c1, c2, fun hr => ?_⟩
    obtain ⟨d1, d2⟩ := c3 hr
    exact ⟨d1.trans (hrepl j (by omega)), d2.trans (hrepl2 j (by omega))⟩

theorem setSolveSettings_total (o : BundleObservation)
    (s : BundleObservationSolveSettings)
    (hpos : 0 < s.numberCameraPositionCoefficientsSolved →
      min s.numberCameraPositionCoefficientsSolved 3 ≤ s.aprioriPositionSigmas.length)
    (hpnt : 0 < s.numberCameraAngleCoefficientsSolved →
      min s.numberCameraAngleCoefficientsSolved 3 ≤ s.aprioriPointingSigmas.length) :
    ∃ o', setSolveSettings o s = some (true, o') := by
  have hF := nParametersFormula_eq s
  have hsplit : numberParameters s =
      3 * s.numberCameraPositionCoefficientsSolved +
      (if s.solveTwist then 3 * s.numberCameraAngleCoefficientsSolved
       else 2 * s.numberCameraAngleCoefficientsSolved) := rfl
  obtain ⟨w1, s1, hp⟩ := weightLoop_total
    s.aprioriPositionSigmas
    (positionWeightOf s 0) (positionWeightOf s 1) (positionWeightOf s 2)
    s.numberCameraPositionCoefficientsSolved 0
    (3 * s.numberCameraPositionCoefficientsSolved)
    (List.replicate (3 * s.numberCameraPositionCoefficientsSolved +
      2 * s.numberCameraAngleCoefficientsSolved +
      (if 1 ≤ s.numberCameraAngleCoefficientsSolved ∧ s.solveTwist then
        s.numberCameraAngleCoefficientsSolved
      else 0)) (0 : ℚ))
    (List.replicate (3 * s.numberCameraPositionCoefficientsSolved +
      2 * s.numberCameraAngleCoefficientsSolved +
      (if 1 ≤ s.numberCameraAngleCoefficientsSolved ∧ s.solveTwist then
        s.numberCameraAngleCoefficientsSolved
      else 0)) isisNull)
    (by
      intro i hi hr3
      have hpne : 0 < s.numberCameraPositionCoefficientsSolved := by omega
      have := Nat.mod_lt i hpne
      have := hpos hpne
      omega)
    (by rw [List.length_replicate]; omega)
    (by rw [List.length_replicate]; omega)
  obtain ⟨lw, ls⟩ := weightLoop_length hp
  obtain ⟨w2, s2, hq⟩ := weightLoop_total
    s.aprioriPointingSigmas
    (pointingWeightOf s 0) (pointingWeightOf s 1) (pointingWeightOf s 2)
    s.numberCameraAngleCoefficientsSolved
    (3 * s.numberCameraPositionCoefficientsSolved)
    (if s.solveTwist then 3 * s.numberCameraAngleCoefficientsSolved
     else 2 * s.numberCameraAngleCoefficientsSolved)
    w1 s1
    (by
      intro i hi hr3
      have hane : 0 < s.numberCameraAngleCoefficientsSolved := by
        by_contra hz
        have ha0 : s.numberCameraAngleCoefficientsSolved = 0 := by omega
        rw [ha0] at hi
        simp at hi
      have := Nat.mod_lt i hane
      have := hpnt hane
      omega)
    (by
      rw [lw, List.length_replicate]
      cases ht : s.solveTwist <;> simp [ht] <;> (try split) <;> omega)
    (by
      rw [ls, List.length_replicate]
      cases ht : s.solveTwist <;> simp [ht] <;> (try split) <;> omega)
  have hiw : initParameterWeights s
      (List.replicate (3 * s.numberCameraPositionCoefficientsSolved +
        2 * s.numberCameraAngleCoefficientsSolved +
        (if 1 ≤ s.numberCameraAngleCoefficientsSolved ∧ s.solveTwist then
          s.numberCameraAngleCoefficientsSolved
        else 0)) (0 : ℚ))
      (List.replicate (3 * s.numberCameraPositionCoefficientsSolved +
        2 * s.numberCameraAngleCoefficientsSolved +
        (if 1 ≤ s.numberCameraAngleCoefficientsSolved ∧ s.solveTwist then
          s.numberCameraAngleCoefficientsSolved
        else 0)) isisNull) = some (w2, s2) := by
    simp only [initParameterWeights, Option.bind_eq_some]
    exact ⟨(w1, s1), hp, hq⟩
  exact ⟨_, by
    simp only [setSolveSettings, Option.bind_eq_some]
    exact ⟨(w2, s2), hiw, rfl⟩⟩

/-- Solve settings of the spec's concrete scenario: position+velocity
(2 coefficients per axis), pointing none, a-priori position sigmas
`[0.5, 0.01]` with the acceleration entry absent. -/
def scenarioPosVelSettings : BundleObservationSolveSettings :=
  { instrumentPositionSolveOption := InstrumentPositionSolveOption.PositionVelocity,
    instrumentPointingSolveOption := InstrumentPointingSolveOption.NoPointingFactors,
    numberCameraPositionCoefficientsSolved := 2,
    numberCameraAngleCoefficientsSolved := 0,
    solveTwist := false, spkDegree := 2, spkSolveDegree := 1,
    ckDegree := 2, ckSolveDegree := 2,
    aprioriPositionSigmas := [0.5, 0.01], aprioriPointingSigmas := [],
    positionInterpolationType := 0, pointingInterpolationType := 0 }

/-- The observation state `setSolveSettings` produces from the default
observation and `scenarioPosVelSettings`. -/
def scenarioPosVelObservation : BundleObservation :=
  { images := [], serialNumbers := [], imageNames := [], parameterNamesList := [],
    observationNumber := "", instrumentId := "", instrumentPosition := none,
    instrumentRotation := none, index := 0,
    weights := [4000000, 10000000000, 4000000, 10000000000, 4000000, 10000000000],
    corrections := [0, 0, 0, 0, 0, 0],
    aprioriSigmas := [0.5, 0.01, 0.5, 0.01, 0.5, 0.01],
    adjustedSigmas := [0, 0, 0, 0, 0, 0],
    solveSettings := some scenarioPosVelSettings }

/-- Evaluation of `setSolveSettings` on the concrete scenario. -/
theorem scenarioPosVel_eval :
    setSolveSettings defaultBundleObservation scenarioPosVelSettings =
      some (true, scenarioPosVelObservation) := by
  norm_num [setSolveSettings, initParameterWeights, weightLoop, weightLoopStep,
    defaultBundleObservation, scenarioPosVelSettings, scenarioPosVelObservation,
    isisNull, List.getD, List.set, List.replicate]

/-- Claim C5: weight initialization assigns slot `i < 3p` the sigma/weight of
sub-category `i mod p` (0 → value, 1 → rate, 2 → acceleration); pointing
slots at offset `3p` follow the same pattern modulo `a`, identically across
the RA/DEC/Twist blocks.  Concretely, for position+velocity with sigmas
`[0.5, 0.01]` and no pointing: `numberParameters = 6`,
weights `1/(0.5²·1e-6)` and `1/(0.01²·1e-6)` alternating, a-priori sigmas
`[0.5, 0.01, 0.5, 0.01, 0.5, 0.01]`. -/
theorem C5_weight_slot_mapping :
    (∀ (o : BundleObservation) (s : BundleObservationSolveSettings)
        (b : Bool) (o' : BundleObservation),
      setSolveSettings o s = some (b, o') →
      (∀ j, j < numberPositionParameters s →
        (j % s.numberCameraPositionCoefficientsSolved = 0 →
          o'.weights[j]? = some (positionWeightOf s 0) ∧
          o'.aprioriSigmas[j]? = s.aprioriPositionSigmas[0]?) ∧
        (j % s.numberCameraPositionCoefficientsSolved = 1 →
          o'.weights[j]? = some (positionWeightOf s 1) ∧
          o'.aprioriSigmas[j]? = s.aprioriPositionSigmas[1]?) ∧
        (j % s.numberCameraPositionCoefficientsSolved = 2 →
          o'.weights[j]? = some (positionWeightOf s 2) ∧
          o'.aprioriSigmas[j]? = s.aprioriPositionSigmas[2]?)) ∧
      (∀ j, numberPositionParameters s ≤ j → j < numberParameters s →
        ((j - numberPositionParameters s) % s.numberCameraAngleCoefficientsSolved = 0 →
          o'.weights[j]? = some (pointingWeightOf s 0) ∧
          o'.aprioriSigmas[j]? = s.aprioriPointingSigmas[0]?) ∧
        ((j - numberPositionParameters s) % s.numberCameraAngleCoefficientsSolved = 1 →
          o'.weights[j]? = some (pointingWeightOf s 1) ∧
          o'.aprioriSigmas[j]? = s.aprioriPointingSigmas[1]?) ∧
        ((j - numberPositionParameters s) % s.numberCameraAngleCoefficientsSolved = 2 →
          o'.weights[j]? = some (pointingWeightOf s 2) ∧
          o'.aprioriSigmas[j]? = s.aprioriPointingSigmas[2]?))) ∧
    (numberParameters scenarioPosVelSettings = 6 ∧
     setSolveSettings defaultBundleObservation scenarioPosVelSettings =
       some (true, scenarioPosVelObservation) ∧
     scenarioPosVelObservation.weights =
       [1 / (0.5 * 0.5 * 1.0e-6), 1 / (0.01 * 0.01 * 1.0e-6),
        1 / (0.5 * 0.5 * 1.0e-6), 1 / (0.01 * 0.01 * 1.0e-6),
        1 / (0.5 * 0.5 * 1.0e-6), 1 / (0.01 * 0.01 * 1.0e-6)] ∧
     scenarioPosVelObservation.aprioriSigmas = [0.5, 0.01, 0.5, 0.01, 0.5, 0.01]) := by
  constructor
  · intro o s b o' h
    obtain ⟨_, _, _, _, _, _, cpos, cpnt⟩ := setSolveSettings_success_char h
    constructor
    · intro j hj
      obtain ⟨c0, c1, c2, _⟩ := cpos j hj
      exact ⟨c0, c1, c2⟩
    · intro j hj1 hj2
      obtain ⟨c0, c1, c2, _⟩ := cpnt j hj1 hj2
      exact ⟨c0, c1, c2⟩
  · refine ⟨by decide, scenarioPosVel_eval, ?_, ?_⟩
    · norm_num [scenarioPosVelObservation]
    · norm_num [scenarioPosVelObservation]

/-- Witness for C5: the general slot-mapping applied at the concrete
scenario, slots 0 and 1. -/
theorem C5_weight_slot_mapping_witness :
    scenarioPosVelObservation.weights[0]? =
      some (positionWeightOf scenarioPosVelSettings 0) ∧
    scenarioPosVelObservation.aprioriSigmas[1]? =
      scenarioPosVelSettings.aprioriPositionSigmas[1]? :=
  ⟨(((C5_weight_slot_mapping.1 defaultBundleObservation scenarioPosVelSettings
      true scenarioPosVelObservation scenarioPosVel_eval).1 0 (by decide)).1
      (by decide)).1,
   (((C5_weight_slot_mapping.1 defaultBundleObservation scenarioPosVelSettings
      true scenarioPosVelObservation scenarioPosVel_eval).1 1 (by decide)).2.1
      (by decide)).2⟩

/-- Solve settings with one position coefficient solved and a present but
non-positive a-priori position sigma. -/
def negativeSigmaSettings : BundleObservationSolveSettings :=
  { instrumentPositionSolveOption := InstrumentPositionSolveOption.PositionOnly,
    instrumentPointingSolveOption := InstrumentPointingSolveOption.NoPointingFactors,
    numberCameraPositionCoefficientsSolved := 1,
    numberCameraAngleCoefficientsSolved := 0,
    solveTwist := false, spkDegree := 2, spkSolveDegree := 0,
    ckDegree := 2, ckSolveDegree := 2,
    aprioriPositionSigmas := [-1], aprioriPointingSigmas := [],
    positionInterpolationType := 0, pointingInterpolationType := 0 }

/-- The observation state produced from `negativeSigmaSettings`. -/
def negativeSigmaObservation : BundleObservation :=
  { images := [], serialNumbers := [], imageNames := [], parameterNamesList := [],
    observationNumber := "", instrumentId := "", instrumentPosition := none,
    instrumentRotation := none, index := 0,
    weights := [0, 0, 0],
    corrections := [0, 0, 0],
    aprioriSigmas := [-1, -1, -1],
    adjustedSigmas := [0, 0, 0],
    solveSettings := some negativeSigmaSettings }

/-- Evaluation of `setSolveSettings` on the negative-sigma input. -/
theorem negativeSigma_eval :
    setSolveSettings defaultBundleObservation negativeSigmaSettings =
      some (true, negativeSigmaObservation) := by
  norm_num [setSolveSettings, initParameterWeights, weightLoop, weightLoopStep,
    defaultBundleObservation, negativeSigmaSettings, negativeSigmaObservation,
    isisNull, List.getD, List.set, List.replicate]

/-- Counterexample to claim C4: with a present but non-positive sigma
(`-1`), the weight is indeed `0`, but the stored a-priori sigma slots are
overwritten with `-1`, not left at the `Isis::Null` "unknown" sentinel as
the claim states. -/
theorem C4_counterexample :
    setSolveSettings defaultBundleObservation negativeSigmaSettings =
      some (true, negativeSigmaObservation) ∧
    negativeSigmaSettings.aprioriPositionSigmas = [-1] ∧
    ¬ (0 : ℚ) < -1 ∧
    negativeSigmaObservation.weights = [0, 0, 0] ∧
    negativeSigmaObservation.aprioriSigmas = [-1, -1, -1] ∧
    (-1 : ℚ) ≠ isisNull := by
  refine ⟨negativeSigma_eval, rfl, by norm_num, rfl, rfl, by norm_num [isisNull]⟩

/-- Claim C4 (amended): for a slot whose sub-category sigma is present and
strictly positive the weight is `1/(σ²·1.0e-6)` (position) or
`1/(σ²·DEG2RAD²)` (pointing); otherwise the weight is `0`.  However, the
stored a-priori sigma is overwritten with the list entry whenever weight
initialization completes, even when that entry is non-positive; the
sentinel survives only in slots whose residue exceeds the three
sub-categories, and an "absent" entry that is reached makes the
initialization perform an out-of-bounds list access instead of leaving the
sentinel. -/
theorem C4_sigma_weight_rule_amended (o : BundleObservation)
    (s : BundleObservationSolveSettings) (b : Bool) (o' : BundleObservation)
    (h : setSolveSettings o s = some (b, o')) :
    (∀ r, r < 3 →
      (r + 1 ≤ s.aprioriPositionSigmas.length ∧ 0 < s.aprioriPositionSigmas.getD r 0 →
        positionWeightOf s r =
          1 / (s.aprioriPositionSigmas.getD r 0 * s.aprioriPositionSigmas.getD r 0 * 1.0e-6)) ∧
      (¬ (r + 1 ≤ s.aprioriPositionSigmas.length ∧ 0 < s.aprioriPositionSigmas.getD r 0) →
        positionWeightOf s r = 0) ∧
      (r + 1 ≤ s.aprioriPointingSigmas.length ∧ 0 < s.aprioriPointingSigmas.getD r 0 →
        pointingWeightOf s r =
          1 / (s.aprioriPointingSigmas.getD r 0 * s.aprioriPointingSigmas.getD r 0 *
            DEG2RAD * DEG2RAD)) ∧
      (¬ (r + 1 ≤ s.aprioriPointingSigmas.length ∧ 0 < s.aprioriPointingSigmas.getD r 0) →
        pointingWeightOf s r = 0)) ∧
    (∀ j, j < numberPositionParameters s → ∀ r, r < 3 →
      j % s.numberCameraPositionCoefficientsSolved = r →
      o'.weights[j]? = some (positionWeightOf s r) ∧
      o'.aprioriSigmas[j]? = s.aprioriPositionSigmas[r]?) ∧
    (∀ j, j < numberPositionParameters s →
      3 ≤ j % s.numberCameraPositionCoefficientsSolved →
      o'.weights[j]? = some 0 ∧ o'.aprioriSigmas[j]? = some isisNull) ∧
    (∀ j, numberPositionParameters s ≤ j → j < numberParameters s → ∀ r, r < 3 →
      (j - numberPositionParameters s) % s.numberCameraAngleCoefficientsSolved = r →
      o'.weights[j]? = some (pointingWeightOf s r) ∧
      o'.aprioriSigmas[j]? = s.aprioriPointingSigmas[r]?) ∧
    (∀ j, numberPositionParameters s ≤ j → j < numberParameters s →
      3 ≤ (j - numberPositionParameters s) % s.numberCameraAngleCoefficientsSolved →
      o'.weights[j]? = some 0 ∧ o'.aprioriSigmas[j]? = some isisNull) := by
  obtain ⟨_, _, _, _, _, _, cpos, cpnt⟩ := setSolveSettings_success_char h
  refine ⟨?_, ?_, ?_, ?_, ?_⟩
  · intro r hr
    match r, hr with
    | 0, _ =>
      refine ⟨fun hc => ?_, fun hc => ?_, fun hc => ?_, fun hc => ?_⟩
      · unfold positionWeightOf
        rw [if_pos hc]
      · unfold positionWeightOf
        rw [if_neg hc]
      · unfold pointingWeightOf
        rw [if_pos hc]
      · unfold pointingWeightOf
        rw [if_neg hc]
    | 1, _ =>
      refine ⟨fun hc => ?_, fun hc => ?_, fun hc => ?_, fun hc => ?_⟩
      · unfold positionWeightOf
        rw [if_pos hc]
      · unfold positionWeightOf
        rw [if_neg hc]
      · unfold pointingWeightOf
        rw [if_pos hc]
      · unfold pointingWeightOf
        rw [if_neg hc]
    | 2, _ =>
      refine ⟨fun hc => ?_, fun hc => ?_, fun hc => ?_, fun hc => ?_⟩
      · unfold positionWeightOf
        rw [if_pos hc]
      · unfold positionWeightOf
        rw [if_neg hc]
      · unfold pointingWeightOf
        rw [if_pos hc]
      · unfold pointingWeightOf
        rw [if_neg hc]
  · intro j hj r hr hjr
    obtain ⟨c0, c1, c2, _⟩ := cpos j hj
    match r, hr with
    | 0, _ => exact c0 hjr
    | 1, _ => exact c1 hjr
    | 2, _ => exact c2 hjr
  · intro j hj hr
    obtain ⟨_, _, _, c3⟩ := cpos j hj
    exact c3 hr
  · intro j hj1 hj2 r hr hjr
    obtain ⟨c0, c1, c2, _⟩ := cpnt j hj1 hj2
    match r, hr with
    | 0, _ => exact c0 hjr
    | 1, _ => exact c1 hjr
    | 2, _ => exact c2 hjr
  · intro j hj1 hj2 hr
    obtain ⟨_, _, _, c3⟩ := cpnt j hj1 hj2
    exact c3 hr

/-- Witness for the amended C4: the rule applied at the concrete
negative-sigma input, slot 0. -/
theorem C4_sigma_weight_rule_amended_witness :
    negativeSigmaObservation.weights[0]? =
      some (positionWeightOf negativeSigmaSettings 0) ∧
    negativeSigmaObservation.aprioriSigmas[0]? =
      negativeSigmaSettings.aprioriPositionSigmas[0]? :=
  (C4_sigma_weight_rule_amended defaultBundleObservation negativeSigmaSettings
    true negativeSigmaObservation negativeSigma_eval).2.1 0 (by decide) 0 (by decide)
    (by decide)

/-- Solve settings with one position coefficient solved and an empty
a-priori position sigma list. -/
def emptySigmaSettings : BundleObservationSolveSettings :=
  { negativeSigmaSettings with aprioriPositionSigmas := [] }

/-- Counterexample to claim C6: with an empty position sigma list but one
position coefficient solved, the weight-initialization loop reads
`aprioriPositionSigmas.at(0)` out of bounds (`QList::at` with an invalid
index), so `setSolveSettings` has no defined successful result, where the
claim says it succeeds for every settings value, including empty sigma
lists. -/
theorem C6_counterexample :
    emptySigmaSettings.aprioriPositionSigmas = [] ∧
    emptySigmaSettings.numberCameraPositionCoefficientsSolved = 1 ∧
    setSolveSettings defaultBundleObservation emptySigmaSettings = none := by
  refine ⟨rfl, rfl, ?_⟩
  norm_num [setSolveSettings, initParameterWeights, weightLoop, weightLoopStep,
    defaultBundleObservation, emptySigmaSettings, negativeSigmaSettings,
    isisNull, List.getD, List.set, List.replicate]

/-- Claim C6 (amended): whenever each solved group's a-priori sigma list
covers the sub-categories the loops access (`min(count, 3)` entries —
in particular whenever the group is unsolved), `setSolveSettings` returns
`true`, the four parameter vectors have length
`3·p + (2 or 3, per twist)·a`, the corrections and adjusted sigmas are all
zero, and the a-priori sigmas start from the unknown sentinel before weight
initialization; for settings whose solved group has an empty or too-short
sigma list, weight initialization instead performs an out-of-bounds access
(no defined result), so the original "always succeeds" is false. -/
theorem C6_setSolveSettings_sizing_amended (o : BundleObservation)
    (s : BundleObservationSolveSettings)
    (hpos : 0 < s.numberCameraPositionCoefficientsSolved →
      min s.numberCameraPositionCoefficientsSolved 3 ≤ s.aprioriPositionSigmas.length)
    (hpnt : 0 < s.numberCameraAngleCoefficientsSolved →
      min s.numberCameraAngleCoefficientsSolved 3 ≤ s.aprioriPointingSigmas.length) :
    ∃ o', setSolveSettings o s = some (true, o') ∧
      o'.weights.length = numberParameters s ∧
      o'.corrections.length = numberParameters s ∧
      o'.adjustedSigmas.length = numberParameters s ∧
      o'.aprioriSigmas.length = numberParameters s ∧
      o'.corrections = List.replicate (numberParameters s) 0 ∧
      o'.adjustedSigmas = List.replicate (numberParameters s) 0 ∧
      numberParameters s = 3 * s.numberCameraPositionCoefficientsSolved +
        (if s.solveTwist then 3 else 2) * s.numberCameraAngleCoefficientsSolved := by
  obtain ⟨o', h⟩ := setSolveSettings_total o s hpos hpnt
  obtain ⟨_, _, hwl, hal, hc, ha, _, _⟩ := setSolveSettings_success_char h
  refine ⟨o', h, hwl, ?_, ?_, hal, hc, ha, ?_⟩
  · rw [hc, List.length_replicate]
  · rw [ha, List.length_replicate]
  · rw [numberParameters_split]
    unfold numberPositionParameters numberPointingParameters
    cases ht : s.solveTwist <;> simp [ht] <;> ring

/-- Witness for the amended C6 at the concrete position+velocity
scenario. -/
theorem C6_setSolveSettings_sizing_amended_witness :
    ∃ o', setSolveSettings defaultBundleObservation scenarioPosVelSettings =
        some (true, o') ∧
      o'.weights.length = numberParameters scenarioPosVelSettings ∧
      o'.corrections.length = numberParameters scenarioPosVelSettings ∧
      o'.adjustedSigmas.length = numberParameters scenarioPosVelSettings ∧
      o'.aprioriSigmas.length = numberParameters scenarioPosVelSettings ∧
      o'.corrections = List.replicate (numberParameters scenarioPosVelSettings) 0 ∧
      o'.adjustedSigmas = List.replicate (numberParameters scenarioPosVelSettings) 0 ∧
      numberParameters scenarioPosVelSettings =
        3 * scenarioPosVelSettings.numberCameraPositionCoefficientsSolved +
        (if scenarioPosVelSettings.solveTwist then 3 else 2) *
          scenarioPosVelSettings.numberCameraAngleCoefficientsSolved :=
  C6_setSolveSettings_sizing_amended defaultBundleObservation scenarioPosVelSettings
    (by decide) (by decide)

/-- One `coef[i] += corrections(index); index++` loop of
`applyParameterCorrections`: add entries `start, …, start+n-1` of the flat
correction vector into the first `n` entries of a coefficient vector.
Out-of-bounds reads or writes (unchecked `ublas` / `std::vector`
indexing) have no defined result. -/
def addSlice (coef cs : List ℚ) (start n : ℕ) : Option (List ℚ) :=
  if n ≤ coef.length ∧ start + n ≤ cs.length then
    some (List.zipWith (fun x y => x + y) (coef.take n) ((cs.drop start).take n) ++
      coef.drop n)
  else none

/-- The "apply updates to all images in observation" loop: broadcast
`SetPolynomial(c1, c2, c3, interp)` to the trajectory of every member image
in order.  A null image trajectory pointer or a dangling pointer has no
defined result. -/
def broadcastPoly (h : SpiceHeap) (ptrs : List (Option ℕ))
    (c1 c2 c3 : List ℚ) (interp : ℤ) : Option SpiceHeap :=
  match ptrs with
  | [] => some h
  | none :: _ => none
  | some p :: rest =>
    match h[p]? with
    | none => none
    | some t =>
      broadcastPoly (h.set p (t.setPolynomialCoeffs c1 c2 c3 interp)) rest
        c1 c2 c3 interp

/-- Result of one solve-option block of `applyParameterCorrections`:
undefined behavior, an `IException` throw (to be caught by the enclosing
handler), or normal completion. -/
inductive BlockResult (α : Type) where
  | ub : BlockResult α
  | thrown : BlockResult α
  | ok : α → BlockResult α
deriving Repr, DecidableEq

/-- The position block of `BundleObservation::applyParameterCorrections`
(source lines 587–629): when position is solved, throw if the canonical
position source is null; otherwise read the current X/Y/Z coefficient
vectors from it, add the three correction slices, and broadcast the result
to every member image.  Returns the heap and the next flat index. -/
def positionBlock (h : SpiceHeap) (o : BundleObservation)
    (s : BundleObservationSolveSettings) (corrections : List ℚ) :
    BlockResult (SpiceHeap × ℕ) :=
  if s.instrumentPositionSolveOption =
      InstrumentPositionSolveOption.NoPositionFactors then
    BlockResult.ok (h, 0)
  else
    match o.instrumentPosition with
    | none => BlockResult.thrown
    | some ptr =>
      match h[ptr]? with
      | none => BlockResult.ub
      | some traj =>
        let n := s.numberCameraPositionCoefficientsSolved
        match (addSlice traj.coef1 corrections 0 n).bind (fun c1 =>
            (addSlice traj.coef2 corrections n n).bind (fun c2 =>
              (addSlice traj.coef3 corrections (2 * n) n).bind (fun c3 =>
                broadcastPoly h (o.images.map BundleImage.positionPtr) c1 c2 c3
                  s.positionInterpolationType))) with
        | none => BlockResult.ub
        | some h1 => BlockResult.ok (h1, 3 * n)

/-- The pointing block of `BundleObservation::applyParameterCorrections`
(source lines 631–675): when pointing is solved, throw if the canonical
rotation source is null; otherwise read the current RA/DEC/Twist
coefficient vectors from it (`GetPolynomial` replaces the declared
buffers), add the RA and DEC slices and — only if twist is solved — the
Twist slice, and broadcast all three vectors to every member image. -/
def pointingBlock (h : SpiceHeap) (o : BundleObservation)
    (s : BundleObservationSolveSettings) (corrections : List ℚ) (index : ℕ) :
    BlockResult (SpiceHeap × ℕ) :=
  if s.instrumentPointingSolveOption =
      InstrumentPointingSolveOption.NoPointingFactors then
    BlockResult.ok (h, index)
  else
    match o.instrumentRotation with
    | none => BlockResult.thrown
    | some ptr =>
      match h[ptr]? with
      | none => BlockResult.ub
      | some traj =>
        let nA := s.numberCameraAngleCoefficientsSolved
        match (addSlice traj.coef1 corrections index nA).bind (fun cRA =>
            (addSlice traj.coef2 corrections (index + nA) nA).bind (fun cDEC =>
              (if s.solveTwist then
                addSlice traj.coef3 corrections (index + 2 * nA) nA
              else some traj.coef3).bind (fun cTWI =>
                broadcastPoly h (o.images.map BundleImage.rotationPtr) cRA cDEC
                  cTWI s.pointingInterpolationType))) with
        | none => BlockResult.ub
        | some h1 =>
          BlockResult.ok (h1, index + 2 * nA + (if s.solveTwist then nA else 0))

/-- `ublas` vector `+=` (the `m_corrections += corrections` statement),
defined for equal sizes. -/
def vecAdd (a b : List ℚ) : Option (List ℚ) :=
  if a.length = b.length then some (List.zipWith (fun x y => x + y) a b)
  else none

/-- `BundleObservation::applyParameterCorrections` (source lines 578–686):
run the position block, then the pointing block, then accumulate the whole
input vector into `m_corrections`.  The two `IException` throws inside the
`try` are caught by the handler at the bottom, which constructs the wrapped
"Unable to apply parameter corrections" exception but never throws it (the
statement discards the temporary, see the `//THROW ???` comment), so the
function returns `true` with whatever partial state the blocks left.
`none` models undefined behavior (unchecked out-of-bounds vector access, a
dangling trajectory pointer, or a null `m_solveSettings`). -/
def applyParameterCorrections (h : SpiceHeap) (o : BundleObservation)
    (corrections : List ℚ) : Option (Bool × SpiceHeap × BundleObservation) :=
  match o.solveSettings with
  | none => none
  | some s =>
    match positionBlock h o s corrections with
    | BlockResult.ub => none
    | BlockResult.thrown => some (true, h, o)
    | BlockResult.ok (h1, index) =>
      match pointingBlock h1 o s corrections index with
      | BlockResult.ub => none
      | BlockResult.thrown => some (true, h1, o)
      | BlockResult.ok (h2, _) =>
        match vecAdd o.corrections corrections with
        | none => none
        | some corr => some (true, h2, { o with corrections := corr })

/-- The declared size of the temporary `coefX` / `coefY` / `coefZ` buffers
in the position block of `applyParameterCorrections` (source lines
598–600): `nCameraPositionCoefficients`. -/
def positionBufferLength (s : BundleObservationSolveSettings) : ℕ :=
  s.numberCameraPositionCoefficientsSolved

/-- The declared size of the temporary `coefRA` / `coefDEC` / `coefTWI`
buffers in the pointing block of `applyParameterCorrections` (source lines
642–644): the source sizes them with `nCameraPositionCoefficients` as
well, not with `nCameraAngleCoefficients`. -/
def pointingBufferLength (s : BundleObservationSolveSettings) : ℕ :=
  s.numberCameraPositionCoefficientsSolved

/-- Claim C1: evaluation of the code at the failing input.  The claim (and
the function's own `@throws` documentation) says an observation whose
position solve option is not "none" but whose instrument position source is
null makes `applyParameterCorrections` fail with an unrecoverable-state
error surfaced to the caller.  The code throws internally, but the
`catch` handler wraps the exception into a new `IException` and discards it
(`IException(e, …); //THROW ???`), so the call returns `true` — success —
with the state unchanged, and nothing is surfaced. -/
theorem C1_swallowed_exception_eval :
    negativeSigmaSettings.instrumentPositionSolveOption ≠
      InstrumentPositionSolveOption.NoPositionFactors ∧
    negativeSigmaObservation.instrumentPosition = none ∧
    applyParameterCorrections [] negativeSigmaObservation [1, 2, 3] =
      some (true, [], negativeSigmaObservation) := by
  refine ⟨by decide, rfl, by decide⟩

/-- Solve settings with no position coefficients and one pointing
coefficient solved (twist not solved). -/
def pointingOnlySettings : BundleObservationSolveSettings :=
  { instrumentPositionSolveOption := InstrumentPositionSolveOption.NoPositionFactors,
    instrumentPointingSolveOption := InstrumentPointingSolveOption.AnglesOnly,
    numberCameraPositionCoefficientsSolved := 0,
    numberCameraAngleCoefficientsSolved := 1,
    solveTwist := false, spkDegree := 2, spkSolveDegree := 2,
    ckDegree := 2, ckSolveDegree := 0,
    aprioriPositionSigmas := [], aprioriPointingSigmas := [-1],
    positionInterpolationType := 0, pointingInterpolationType := 0 }

/-- Claim C7: evaluation of the code at the failing input.  The claim says
the RA/DEC/Twist coefficient buffers hold exactly the number of pointing
coefficients solved for all combinations of counts; the source instead
declares `coefRA`/`coefDEC`/`coefTWI` with `nCameraPositionCoefficients`
entries (lines 642–644).  With no position coefficients and one pointing
coefficient solved, the declared buffers are empty while the update loop
runs to index 0 — reading such a buffer at index 0 is out of bounds, and
only the trajectory engine's buffer-replacing `GetPolynomial` hides the
slip at run time. -/
theorem C7_pointing_buffer_size_eval :
    pointingBufferLength pointingOnlySettings = 0 ∧
    pointingOnlySettings.numberCameraAngleCoefficientsSolved = 1 ∧
    pointingBufferLength pointingOnlySettings <
      pointingOnlySettings.numberCameraAngleCoefficientsSolved ∧
    (List.replicate (pointingBufferLength pointingOnlySettings) (0 : ℚ))[0]? =
      none ∧
    pointingBufferLength pointingOnlySettings ≠
      pointingOnlySettings.numberCameraAngleCoefficientsSolved := by
  refine ⟨rfl, rfl, by decide, rfl, by decide⟩

theorem broadcastPoly_char {c1 c2 c3 : List ℚ} {interp : ℤ} :
    ∀ (ptrs : List (Option ℕ)) (h h' : SpiceHeap),
    broadcastPoly h ptrs c1 c2 c3 interp = some h' →
    h'.length = h.length ∧
    (∀ ptr ∈ ptrs, ∃ p t, ptr = some p ∧ h[p]? = some t) ∧
    (∀ q, (some q ∈ ptrs →
        h'[q]? = (h[q]?).map (fun t =>
          SpiceTrajectory.setPolynomialCoeffs t c1 c2 c3 interp)) ∧
      (some q ∉ ptrs → h'[q]? = h[q]?)) := by
  intro ptrs
  induction ptrs with
  | nil =>
    intro h h' hb
    simp only [broadcastPoly, Option.some.injEq] at hb
    subst hb
    exact ⟨rfl, by simp, fun q => ⟨by simp, fun _ => rfl⟩⟩
  | cons ptr rest ih =>
    intro h h' hb
    match ptr with
    | none => exact absurd hb (by simp [broadcastPoly])
    | some p =>
      simp only [broadcastPoly] at hb
      cases ht : h[p]? with
      | none => rw [ht] at hb; exact absurd hb (by simp)
      | some t =>
        rw [ht] at hb
        have hp : p < h.length := by
          by_contra hc
          rw [List.getElem?_eq_none (by omega)] at ht
          exact absurd ht (by simp)
        obtain ⟨lh, valid, ch⟩ := ih _ h' hb
        have hset1 : (h.set p (t.setPolynomialCoeffs c1 c2 c3 interp))[p]? =
            some (t.setPolynomialCoeffs c1 c2 c3 interp) :=
          List.getElem?_set_eq_of_lt _ hp
        refine ⟨lh.trans (List.length_set ..), ?_, ?_⟩
        · intro pt hpt
          rcases List.mem_cons.1 hpt with he | hm
          · exact ⟨p, t, he, ht⟩
          · obtain ⟨p', t', he', ht'⟩ := valid pt hm
            by_cases hpp : p' = p
            · exact ⟨p', t, he', by rw [hpp]; exact ht⟩
            · refine ⟨p', t', he', ?_⟩
              rw [List.getElem?_set_ne (fun hx => hpp hx.symm)] at ht'
              exact ht'
        · intro q
          constructor
          · intro hq
            rcases List.mem_cons.1 hq with he | hm
            · have hqp : q = p := Option.some.inj he
              subst hqp
              by_cases hmem : some q ∈ rest
              · have := (ch q).1 hmem
                rw [hset1] at this
                rw [this, ht]
                rfl
              · have := (ch q).2 hmem
                rw [hset1] at this
                rw [this, ht]
                rfl
            · by_cases hqp : q = p
              · subst hqp
                have := (ch q).1 hm
                rw [hset1] at this
                rw [this, ht]
                rfl
              · have := (ch q).1 hm
                rw [List.getElem?_set_ne (fun hx => hqp hx.symm)] at this
                exact this
          · intro hq
            have hqp : q ≠ p := by
              intro he
              exact hq (by rw [he]; exact List.mem_cons_self _ _)
            have hm : some q ∉ rest := fun hx => hq (List.mem_cons_of_mem _ hx)
            have := (ch q).2 hm
            rw [List.getElem?_set_ne (fun hx => hqp hx.symm)] at this
            exact this

theorem broadcastPoly_total {c1 c2 c3 : List ℚ} {interp : ℤ} :
    ∀ (ptrs : List (Option ℕ)) (h : SpiceHeap),
    (∀ ptr ∈ ptrs, ∃ p, ptr = some p ∧ p < h.length) →
    ∃ h', broadcastPoly h ptrs c1 c2 c3 interp = some h' := by
  intro ptrs
  induction ptrs with
  | nil => exact fun h _ => ⟨h, rfl⟩
  | cons ptr rest ih =>
    intro h hv
    obtain ⟨p, he, hp⟩ := hv ptr (List.mem_cons_self _ _)
    subst he
    obtain ⟨h', hb⟩ := ih (h.set p
      ((h[p]).setPolynomialCoeffs c1 c2 c3 interp))
      (fun pt hm => by
        obtain ⟨p', he', hp'⟩ := hv pt (List.mem_cons_of_mem _ hm)
        exact ⟨p', he', by rw [List.length_set]; exact hp'⟩)
    refine ⟨h', ?_⟩
    simp only [broadcastPoly]
    rw [List.getElem?_eq_getElem hp]
    exact hb

/-- Solve settings with one position coefficient and one pointing
coefficient solved (twist not solved). -/
def bothSolvedSettings : BundleObservationSolveSettings :=
  { instrumentPositionSolveOption := InstrumentPositionSolveOption.PositionOnly,
    instrumentPointingSolveOption := InstrumentPointingSolveOption.AnglesOnly,
    numberCameraPositionCoefficientsSolved := 1,
    numberCameraAngleCoefficientsSolved := 1,
    solveTwist := false, spkDegree := 2, spkSolveDegree := 0,
    ckDegree := 2, ckSolveDegree := 0,
    aprioriPositionSigmas := [-1], aprioriPointingSigmas := [-1],
    positionInterpolationType := 0, pointingInterpolationType := 0 }

/-- A live position trajectory with constant coefficients 10 / 20 / 30. -/
def posTrajC2 : SpiceTrajectory :=
  { baseTime := 0, timeScale := 0, degree := 0, hasPoly := true,
    coef1 := [10], coef2 := [20], coef3 := [30], interpType := 0 }

/-- `posTrajC2` after the position update `X += 1`. -/
def posTrajC2updated : SpiceTrajectory :=
  { baseTime := 0, timeScale := 0, degree := 0, hasPoly := true,
    coef1 := [11], coef2 := [20], coef3 := [30], interpType := 0 }

/-- One-image observation solving position and pointing whose instrument
rotation source is null (its single image has a live position trajectory
at arena slot 0 but no rotation). -/
def nullRotationObservation : BundleObservation :=
  { images := [{ positionPtr := some 0, rotationPtr := none }],
    serialNumbers := [], imageNames := [], parameterNamesList := [],
    observationNumber := "", instrumentId := "",
    instrumentPosition := some 0, instrumentRotation := none, index := 0,
    weights := [0, 0, 0, 0, 0], corrections := [0, 0, 0, 0, 0],
    aprioriSigmas := [-1, -1, -1, -1, -1], adjustedSigmas := [0, 0, 0, 0, 0],
    solveSettings := some bothSolvedSettings }

/-- Evaluation of the position block at the C2 counterexample input. -/
theorem positionBlockC2_eval :
    positionBlock [posTrajC2] nullRotationObservation bothSolvedSettings
      [1, 0, 0, 0, 0] = BlockResult.ok ([posTrajC2updated], 3) := by
  unfold positionBlock
  rw [if_neg (by decide)]
  norm_num [addSlice, broadcastPoly, posTrajC2, posTrajC2updated,
    nullRotationObservation, bothSolvedSettings,
    SpiceTrajectory.setPolynomialCoeffs, List.set]

/-- Counterexample to claim C2: the claim says a failing application leaves
no member image's trajectory coefficients changed.  Here the pointing check
throws after the position block has already broadcast its update: the call
"fails" internally (and even reports success, see C1), yet the member
image's position X coefficient has moved from 10 to 11 while the
corrections accumulator is unchanged. -/
theorem C2_counterexample :
    applyParameterCorrections [posTrajC2] nullRotationObservation
      [1, 0, 0, 0, 0] = some (true, [posTrajC2updated], nullRotationObservation) ∧
    nullRotationObservation.instrumentRotation = none ∧
    bothSolvedSettings.instrumentPointingSolveOption ≠
      InstrumentPointingSolveOption.NoPointingFactors ∧
    posTrajC2updated.coef1 = [11] ∧
    posTrajC2.coef1 = [10] ∧
    posTrajC2updated ≠ posTrajC2 ∧
    nullRotationObservation.corrections = [0, 0, 0, 0, 0] := by
  refine ⟨?_, rfl, by decide, rfl, rfl, by decide, rfl⟩
  have hset : nullRotationObservation.solveSettings = some bothSolvedSettings := rfl
  have hq : pointingBlock [posTrajC2updated] nullRotationObservation
      bothSolvedSettings [1, 0, 0, 0, 0] 3 = BlockResult.thrown := by
    unfold pointingBlock
    rw [if_neg (by decide)]
    rfl
  simp only [applyParameterCorrections, hset, positionBlockC2_eval, hq]

/-- Claim C2 (amended): correction application is not all-or-nothing across
blocks.  When the position-source check fails, nothing has been changed;
but when the pointing-source check fails after a solved position block, the
position update has already been broadcast to every member image (uniformly
— the same coefficient triple is written to each member, so partiality
never occurs across member images within a block), while the pointing
coefficients and the `corrections` accumulator are untouched; in both
cases the call still returns success. -/
theorem C2_atomicity_amended (h : SpiceHeap) (o : BundleObservation)
    (s : BundleObservationSolveSettings) (cs : List ℚ)
    (hset : o.solveSettings = some s) :
    (s.instrumentPositionSolveOption ≠
        InstrumentPositionSolveOption.NoPositionFactors →
      o.instrumentPosition = none →
      applyParameterCorrections h o cs = some (true, h, o)) ∧
    (∀ h1 idx,
      s.instrumentPointingSolveOption ≠
        InstrumentPointingSolveOption.NoPointingFactors →
      o.instrumentRotation = none →
      positionBlock h o s cs = BlockResult.ok (h1, idx) →
      applyParameterCorrections h o cs = some (true, h1, o) ∧
      (s.instrumentPositionSolveOption ≠
          InstrumentPositionSolveOption.NoPositionFactors →
        ∃ cX cY cZ, ∀ img ∈ o.images, ∃ p, img.positionPtr = some p ∧
          h1[p]? = (h[p]?).map (fun t =>
            SpiceTrajectory.setPolynomialCoeffs t cX cY cZ
              s.positionInterpolationType))) := by
  constructor
  · intro hps hnull
    have hpb : positionBlock h o s cs = BlockResult.thrown := by
      unfold positionBlock
      rw [if_neg hps, hnull]
    simp only [applyParameterCorrections, hset, hpb]
  · intro h1 idx hpt hrnull hpb
    have hq : pointingBlock h1 o s cs idx = BlockResult.thrown := by
      unfold pointingBlock
      rw [if_neg hpt, hrnull]
    constructor
    · simp only [applyParameterCorrections, hset, hpb, hq]
    · intro hps
      unfold positionBlock at hpb
      rw [if_neg hps] at hpb
      cases hip : o.instrumentPosition with
      | none => rw [hip] at hpb; exact absurd hpb (by simp)
      | some ptr =>
        rw [hip] at hpb
        dsimp only at hpb
        cases ht : h[ptr]? with
        | none => rw [ht] at hpb; exact absurd hpb (by simp)
        | some traj =>
          rw [ht] at hpb
          dsimp only at hpb
          cases hdo : (addSlice traj.coef1 cs 0
              s.numberCameraPositionCoefficientsSolved).bind (fun c1 =>
              (addSlice traj.coef2 cs s.numberCameraPositionCoefficientsSolved
                s.numberCameraPositionCoefficientsSolved).bind (fun c2 =>
                (addSlice traj.coef3 cs
                  (2 * s.numberCameraPositionCoefficientsSolved)
                  s.numberCameraPositionCoefficientsSolved).bind (fun c3 =>
                  broadcastPoly h (o.images.map BundleImage.positionPtr) c1 c2 c3
                    s.positionInterpolationType))) with
          | none => rw [hdo] at hpb; exact absurd hpb (by simp)
          | some hh =>
            rw [hdo] at hpb
            simp only [BlockResult.ok.injEq, Prod.mk.injEq] at hpb
            obtain ⟨hh1, _⟩ := hpb
            subst hh1
            simp only [Option.bind_eq_some] at hdo
            obtain ⟨cX, hX, cY, hY, cZ, hZ, hbro⟩ := hdo
            obtain ⟨_, valid, ch⟩ := broadcastPoly_char _ _ _ hbro
            refine ⟨cX, cY, cZ, ?_⟩
            intro img hmem
            have hptr : img.positionPtr ∈ o.images.map BundleImage.positionPtr :=
              List.mem_map_of_mem _ hmem
            obtain ⟨p, t, hep, _⟩ := valid _ hptr
            refine ⟨p, hep, ?_⟩
            have := (ch p).1 (by rw [← hep]; exact hptr)
            exact this

/-- Witness for the amended C2 at the concrete one-image input: the
pointing-source failure path returns success with the position block
applied. -/
theorem C2_atomicity_amended_witness :
    applyParameterCorrections [posTrajC2] nullRotationObservation
      [1, 0, 0, 0, 0] = some (true, [posTrajC2updated], nullRotationObservation) :=
  ((C2_atomicity_amended [posTrajC2] nullRotationObservation bothSolvedSettings
      [1, 0, 0, 0, 0] rfl).2 [posTrajC2updated] 3 (by decide) rfl
      positionBlockC2_eval).1

/-- `BundleObservation::BundleObservation(const BundleObservation &src)`
(source lines 101–113): copies the serial-number list, observation number,
instrument id, the two trajectory-source pointers (shared, not owned), the
solve-settings shared pointer and the index.  The `QVector` base (the
member-image list) is default-constructed — not copied — and so are the
image-name list, the parameter-name list, and the four parameter vectors. -/
def copyBundleObservation (src : BundleObservation) : BundleObservation :=
  { images := [], serialNumbers := src.serialNumbers, imageNames := [],
    parameterNamesList := [], observationNumber := src.observationNumber,
    instrumentId := src.instrumentId,
    instrumentPosition := src.instrumentPosition,
    instrumentRotation := src.instrumentRotation, index := src.index,
    weights := [], corrections := [], aprioriSigmas := [], adjustedSigmas := [],
    solveSettings := src.solveSettings }

/-- `BundleObservation::operator=` (source lines 135–148), in the
`&src != this` case: assigns the same fields as the copy constructor except
`m_index`, and leaves everything else of the target — the member-image
list, image names, parameter names, and the four parameter vectors —
untouched. -/
def assignBundleObservation (dst src : BundleObservation) : BundleObservation :=
  { dst with serialNumbers := src.serialNumbers,
             observationNumber := src.observationNumber,
             instrumentId := src.instrumentId,
             instrumentPosition := src.instrumentPosition,
             instrumentRotation := src.instrumentRotation,
             solveSettings := src.solveSettings }

/-- An observation with one member image and non-empty parameter vectors. -/
def populatedObservation : BundleObservation :=
  { images := [{ positionPtr := some 0, rotationPtr := none }],
    serialNumbers := ["sn1"], imageNames := ["img1"],
    parameterNamesList := ["  X  (t0)"],
    observationNumber := "obs1", instrumentId := "inst",
    instrumentPosition := some 0, instrumentRotation := none, index := 7,
    weights := [1], corrections := [2], aprioriSigmas := [3],
    adjustedSigmas := [4],
    solveSettings := some negativeSigmaSettings }

/-- Counterexample to claim C10: the copy constructor does not duplicate
the membership list or the sigma/weight arrays — the copy's member-image
list and all four parameter vectors come out empty, so they are not equal
to the source's element for element. -/
theorem C10_counterexample :
    populatedObservation.weights = [1] ∧
    populatedObservation.images.length = 1 ∧
    (copyBundleObservation populatedObservation).weights = [] ∧
    (copyBundleObservation populatedObservation).images = [] ∧
    (copyBundleObservation populatedObservation).weights ≠
      populatedObservation.weights ∧
    (copyBundleObservation populatedObservation).aprioriSigmas ≠
      populatedObservation.aprioriSigmas := by
  refine ⟨rfl, rfl, rfl, rfl, by decide, by decide⟩

/-- Claim C10 (amended): copy-construction shares the solve-settings
pointer and the trajectory-source pointers and copies the serial numbers,
observation number, instrument id, and index — but it default-constructs
the member-image list and the weights / corrections / a-priori / adjusted
sigma vectors instead of duplicating them; copy-assignment assigns the
same fields except the index, leaving the target's membership and
parameter vectors untouched. -/
theorem C10_copy_semantics_amended (src dst : BundleObservation) :
    (copyBundleObservation src).solveSettings = src.solveSettings ∧
    (copyBundleObservation src).serialNumbers = src.serialNumbers ∧
    (copyBundleObservation src).observationNumber = src.observationNumber ∧
    (copyBundleObservation src).instrumentId = src.instrumentId ∧
    (copyBundleObservation src).instrumentPosition = src.instrumentPosition ∧
    (copyBundleObservation src).instrumentRotation = src.instrumentRotation ∧
    (copyBundleObservation src).index = src.index ∧
    (copyBundleObservation src).images = [] ∧
    (copyBundleObservation src).imageNames = [] ∧
    (copyBundleObservation src).weights = [] ∧
    (copyBundleObservation src).corrections = [] ∧
    (copyBundleObservation src).aprioriSigmas = [] ∧
    (copyBundleObservation src).adjustedSigmas = [] ∧
    (assignBundleObservation dst src).solveSettings = src.solveSettings ∧
    (assignBundleObservation dst src).serialNumbers = src.serialNumbers ∧
    (assignBundleObservation dst src).instrumentPosition = src.instrumentPosition ∧
    (assignBundleObservation dst src).instrumentRotation = src.instrumentRotation ∧
    (assignBundleObservation dst src).index = dst.index ∧
    (assignBundleObservation dst src).images = dst.images ∧
    (assignBundleObservation dst src).weights = dst.weights ∧
    (assignBundleObservation dst src).corrections = dst.corrections ∧
    (assignBundleObservation dst src).aprioriSigmas = dst.aprioriSigmas ∧
    (assignBundleObservation dst src).adjustedSigmas = dst.adjustedSigmas :=
  ⟨rfl, rfl, rfl, rfl, rfl, rfl, rfl, rfl, rfl, rfl, rfl, rfl, rfl, rfl, rfl,
   rfl, rfl, rfl, rfl, rfl, rfl, rfl, rfl⟩

/-- One row of the table `formatBundleOutputString` emits (one `qStr`
appended to the output string): parameter name, value before the latest
correction, accumulated correction, current value, a-priori sigma (`none`
renders as "N/A"), adjusted sigma (`none` unless error propagation ran).
The fixed-width numeric rendering of the `QString::arg` chain is abstracted
away: one row record corresponds to exactly one formatted line. -/
structure BundleOutputRow where
  name : String
  valueBefore : ℚ
  correction : ℚ
  value : ℚ
  sigma : Option ℚ
  adjustedSigma : Option ℚ
deriving Repr, DecidableEq

/-- `QString("%1(t%2)").arg(label).arg(k)`. -/
def paramName (label : String) (k : ℕ) : String :=
  label ++ "(t" ++ toString k ++ ")"

/-- One name block of `formatBundleOutputString`: the axis label at time
order 0, blank labels at higher orders. -/
def blockNames (label : String) (n : ℕ) : List String :=
  (List.range n).map (fun i =>
    if i = 0 then paramName label 0 else paramName "     " i)

/-- The parameter-name list `formatBundleOutputString` records (source
lines 786–835): X/Y/Z blocks when position coefficients are solved, then —
whenever pointing coefficients are solved — RA, DEC **and** Twist blocks;
the Twist block is appended without consulting `solveTwist`. -/
def buildParameterNames (s : BundleObservationSolveSettings) : List String :=
  (if 0 < s.numberCameraPositionCoefficientsSolved then
    blockNames "  X  " s.numberCameraPositionCoefficientsSolved ++
    blockNames "  Y  " s.numberCameraPositionCoefficientsSolved ++
    blockNames "  Z  " s.numberCameraPositionCoefficientsSolved
  else []) ++
  (if 0 < s.numberCameraAngleCoefficientsSolved then
    blockNames " RA  " s.numberCameraAngleCoefficientsSolved ++
    blockNames "DEC  " s.numberCameraAngleCoefficientsSolved ++
    blockNames "TWI  " s.numberCameraAngleCoefficientsSolved
  else [])

/-- `push_back(coef[i])` for `i < n`: the first `n` entries of a
coefficient vector; reading past the end has no defined result. -/
def takeCoeffs (c : List ℚ) (n : ℕ) : Option (List ℚ) :=
  if n ≤ c.length then some (c.take n) else none

/-- `finalParameterValues` (source lines 787–835): X/Y/Z coefficients
unchanged, then RA/DEC/Twist coefficients scaled by `RAD2DEG`. -/
def finalParameterValues (s : BundleObservationSolveSettings)
    (cX cY cZ cRA cDEC cTWI : List ℚ) : Option (List ℚ) :=
  let nP := s.numberCameraPositionCoefficientsSolved
  let nA := s.numberCameraAngleCoefficientsSolved
  (takeCoeffs cX nP).bind (fun xs =>
    (takeCoeffs cY nP).bind (fun ys =>
      (takeCoeffs cZ nP).bind (fun zs =>
        (takeCoeffs cRA nA).bind (fun ras =>
          (takeCoeffs cDEC nA).bind (fun decs =>
            (takeCoeffs cTWI nA).bind (fun twis =>
              some (xs ++ ys ++ zs ++
                ras.map (fun x => x * RAD2DEG) ++
                decs.map (fun x => x * RAD2DEG) ++
                twis.map (fun x => x * RAD2DEG))))))))

/-- The adjusted-sigma field of a row: read (and scale) only when error
propagation ran, else "N/A". -/
def adjustedField (adj : List ℚ) (errorPropagation : Bool) (scale : ℚ)
    (i : ℕ) : Option (Option ℚ) :=
  if errorPropagation then (adj[i]?).map (fun x => some (x * scale))
  else some none

/-- One position row of `formatBundleOutputString` (source lines
843–867). -/
def positionRowAt (names : List String) (fPV corr apr adj : List ℚ)
    (errorPropagation : Bool) (i : ℕ) : Option BundleOutputRow :=
  match names[i]?, fPV[i]?, corr[i]?, apr[i]?,
      adjustedField adj errorPropagation 1 i with
  | some nm, some v, some c, some a, some adjf =>
    some { name := nm, valueBefore := v - c, correction := c, value := v,
           sigma := if IsSpecial a then none else some a,
           adjustedSigma := adjf }
  | _, _, _, _, _ => none

/-- One pointing row of `formatBundleOutputString` (source lines 870–894):
the correction and adjusted sigma are scaled by `RAD2DEG` for display. -/
def pointingRowAt (names : List String) (fPV corr apr adj : List ℚ)
    (errorPropagation : Bool) (i : ℕ) : Option BundleOutputRow :=
  match names[i]?, fPV[i]?, corr[i]?, apr[i]?,
      adjustedField adj errorPropagation RAD2DEG i with
  | some nm, some v, some c, some a, some adjf =>
    some { name := nm, valueBefore := v - c * RAD2DEG,
           correction := c * RAD2DEG, value := v,
           sigma := if IsSpecial a then none else some a,
           adjustedSigma := adjf }
  | _, _, _, _, _ => none

/-- Emit one row per index, in order; a failing row read has no defined
result. -/
def rowsFor (f : ℕ → Option BundleOutputRow) :
    List ℕ → Option (List BundleOutputRow)
  | [] => some []
  | i :: rest =>
    match f i, rowsFor f rest with
    | some r, some rs => some (r :: rs)
    | _, _ => none

/-- The `coefX/coefY/coefZ` (or RA/DEC/TWI) buffers of
`formatBundleOutputString`: resized to the coefficient count (zero-filled)
and then replaced by `GetPolynomial` when the count is positive and the
canonical source is non-null (source lines 771–784). -/
def coefBuffers (h : SpiceHeap) (ptr : Option ℕ) (n : ℕ) :
    Option (List ℚ × List ℚ × List ℚ) :=
  match ptr with
  | some p =>
    if 0 < n then (h[p]?).map SpiceTrajectory.getPolynomial
    else some (List.replicate n 0, List.replicate n 0, List.replicate n 0)
  | none => some (List.replicate n 0, List.replicate n 0, List.replicate n 0)

/-- `BundleObservation::formatBundleOutputString` (source lines 756–897),
abstracted to the list of rows it formats: read the current coefficient
vectors, build the ordered value and name lists, record the name list in
`m_parameterNamesList`, then emit one row per solved position parameter
followed by one row per solved pointing parameter. -/
def formatBundleOutputString (h : SpiceHeap) (o : BundleObservation)
    (errorPropagation : Bool) :
    Option (List BundleOutputRow × BundleObservation) :=
  match o.solveSettings with
  | none => none
  | some s =>
    (coefBuffers h o.instrumentPosition
        s.numberCameraPositionCoefficientsSolved).bind (fun cp =>
      (coefBuffers h o.instrumentRotation
          s.numberCameraAngleCoefficientsSolved).bind (fun cr =>
        (finalParameterValues s cp.1 cp.2.1 cp.2.2 cr.1 cr.2.1 cr.2.2).bind
          (fun fPV =>
          let names := buildParameterNames s
          (rowsFor (positionRowAt names fPV o.corrections o.aprioriSigmas
              o.adjustedSigmas errorPropagation)
            (List.range (numberPositionParameters s))).bind (fun rows1 =>
            (rowsFor (pointingRowAt names fPV o.corrections o.aprioriSigmas
                o.adjustedSigmas errorPropagation)
              (List.range' (numberPositionParameters s)
                (numberPointingParameters s))).bind (fun rows2 =>
              some (rows1 ++ rows2,
                { o with parameterNamesList := names }))))))

/-- `BundleObservation::parameterList`. -/
def parameterList (o : BundleObservation) : List String :=
  o.parameterNamesList

theorem rowsFor_char {f : ℕ → Option BundleOutputRow} :
    ∀ {idxs : List ℕ} {rows : List BundleOutputRow},
    rowsFor f idxs = some rows →
    rows.length = idxs.length ∧ ∀ k : ℕ, rows[k]? = (idxs[k]?).bind f := by
  intro idxs
  induction idxs with
  | nil =>
    intro rows hr
    simp only [rowsFor, Option.some.injEq] at hr
    subst hr
    exact ⟨rfl, fun k => by cases k <;> rfl⟩
  | cons i rest ih =>
    intro rows hr
    simp only [rowsFor] at hr
    cases hf : f i with
    | none => rw [hf] at hr; exact absurd hr (by simp)
    | some r =>
      rw [hf] at hr
      cases hrs : rowsFor f rest with
      | none => rw [hrs] at hr; exact absurd hr (by simp)
      | some rs =>
        rw [hrs] at hr
        simp only [Option.some.injEq] at hr
        subst hr
        obtain ⟨hl, hc⟩ := ih hrs
        refine ⟨by simp [hl], ?_⟩
        intro k
        cases k with
        | zero => simp [hf]
        | succ k => simpa using hc k

theorem rowsFor_total {f : ℕ → Option BundleOutputRow} :
    ∀ (idxs : List ℕ), (∀ i ∈ idxs, ∃ r, f i = some r) →
    ∃ rows, rowsFor f idxs = some rows := by
  intro idxs
  induction idxs with
  | nil => exact fun _ => ⟨[], rfl⟩
  | cons i rest ih =>
    intro hv
    obtain ⟨r, hr⟩ := hv i (List.mem_cons_self _ _)
    obtain ⟨rs, hrs⟩ := ih (fun j hj => hv j (List.mem_cons_of_mem _ hj))
    exact ⟨r :: rs, by simp [rowsFor, hr, hrs]⟩

theorem positionRowAt_some (names : List String) (fPV corr apr adj : List ℚ)
    (e : Bool) (i : ℕ)
    (h1 : i < names.length) (h2 : i < fPV.length) (h3 : i < corr.length)
    (h4 : i < apr.length) (h5 : i < adj.length) :
    ∃ r, positionRowAt names fPV corr apr adj e i = some r ∧
      names[i]? = some r.name := by
  unfold positionRowAt adjustedField
  rw [List.getElem?_eq_getElem h1, List.getElem?_eq_getElem h2,
      List.getElem?_eq_getElem h3, List.getElem?_eq_getElem h4]
  by_cases he : e = true
  · rw [if_pos he, List.getElem?_eq_getElem h5]
    exact ⟨_, rfl, rfl⟩
  · rw [if_neg he]
    exact ⟨_, rfl, rfl⟩

theorem pointingRowAt_some (names : List String) (fPV corr apr adj : List ℚ)
    (e : Bool) (i : ℕ)
    (h1 : i < names.length) (h2 : i < fPV.length) (h3 : i < corr.length)
    (h4 : i < apr.length) (h5 : i < adj.length) :
    ∃ r, pointingRowAt names fPV corr apr adj e i = some r ∧
      names[i]? = some r.name := by
  unfold pointingRowAt adjustedField
  rw [List.getElem?_eq_getElem h1, List.getElem?_eq_getElem h2,
      List.getElem?_eq_getElem h3, List.getElem?_eq_getElem h4]
  by_cases he : e = true
  · rw [if_pos he, List.getElem?_eq_getElem h5]
    exact ⟨_, rfl, rfl⟩
  · rw [if_neg he]
    exact ⟨_, rfl, rfl⟩

theorem blockNames_length (label : String) (n : ℕ) :
    (blockNames label n).length = n := by
  simp [blockNames]

theorem buildParameterNames_length (s : BundleObservationSolveSettings) :
    (buildParameterNames s).length =
      3 * s.numberCameraPositionCoefficientsSolved +
      3 * s.numberCameraAngleCoefficientsSolved := by
  unfold buildParameterNames
  by_cases h1 : 0 < s.numberCameraPositionCoefficientsSolved <;>
    by_cases h2 : 0 < s.numberCameraAngleCoefficientsSolved <;>
      simp [h1, h2, blockNames_length] <;> omega

theorem finalParameterValues_some {s : BundleObservationSolveSettings}
    {cX cY cZ cRA cDEC cTWI : List ℚ}
    (hX : s.numberCameraPositionCoefficientsSolved ≤ cX.length)
    (hY : s.numberCameraPositionCoefficientsSolved ≤ cY.length)
    (hZ : s.numberCameraPositionCoefficientsSolved ≤ cZ.length)
    (hRA : s.numberCameraAngleCoefficientsSolved ≤ cRA.length)
    (hDEC : s.numberCameraAngleCoefficientsSolved ≤ cDEC.length)
    (hTWI : s.numberCameraAngleCoefficientsSolved ≤ cTWI.length) :
    ∃ fPV, finalParameterValues s cX cY cZ cRA cDEC cTWI = some fPV ∧
      fPV.length = 3 * s.numberCameraPositionCoefficientsSolved +
        3 * s.numberCameraAngleCoefficientsSolved := by
  unfold finalParameterValues takeCoeffs
  dsimp only
  rw [if_pos hX, Option.some_bind, if_pos hY, Option.some_bind, if_pos hZ,
      Option.some_bind, if_pos hRA, Option.some_bind, if_pos hDEC,
      Option.some_bind, if_pos hTWI, Option.some_bind]
  refine ⟨_, rfl, ?_⟩
  simp only [List.length_append, List.length_take, List.length_map]
  omega

theorem coefBuffers_some {h : SpiceHeap} {ptr : Option ℕ} {n : ℕ}
    (hv : ptr = none ∨ ∃ p t, ptr = some p ∧ h[p]? = some t ∧
      n ≤ t.coef1.length ∧ n ≤ t.coef2.length ∧ n ≤ t.coef3.length) :
    ∃ c, coefBuffers h ptr n = some c ∧
      n ≤ c.1.length ∧ n ≤ c.2.1.length ∧ n ≤ c.2.2.length := by
  rcases hv with he | ⟨p, t, he, ht, l1, l2, l3⟩
  · subst he
    exact ⟨_, rfl, by simp, by simp, by simp⟩
  · subst he
    unfold coefBuffers
    dsimp only
    by_cases hn : 0 < n
    · rw [if_pos hn, ht]
      exact ⟨_, rfl, l1, l2, l3⟩
    · rw [if_neg hn]
      exact ⟨_, rfl, by simp, by simp, by simp⟩

/-- Claim C9 (amended): `formatBundleOutputString` emits exactly
`numberParameters()` rows, one per solved scalar parameter, in the fixed
position-then-pointing order, and the recorded name list is index-aligned
with those rows on the first `numberParameters()` entries.  However, the
name list is not restricted to solved parameters: whenever pointing is
solved, it contains `3·a` pointing names — RA, DEC **and Twist** blocks —
even when twist is not solved, so its total length is `3p + 3a`, one
Twist block longer than the row table in that case. -/
theorem C9_report_rows_amended (h : SpiceHeap) (o : BundleObservation)
    (s : BundleObservationSolveSettings) (errorPropagation : Bool)
    (hset : o.solveSettings = some s)
    (hc : o.corrections.length = numberParameters s)
    (ha : o.aprioriSigmas.length = numberParameters s)
    (hj : o.adjustedSigmas.length = numberParameters s)
    (hP : o.instrumentPosition = none ∨ ∃ p t, o.instrumentPosition = some p ∧
      h[p]? = some t ∧
      s.numberCameraPositionCoefficientsSolved ≤ t.coef1.length ∧
      s.numberCameraPositionCoefficientsSolved ≤ t.coef2.length ∧
      s.numberCameraPositionCoefficientsSolved ≤ t.coef3.length)
    (hR : o.instrumentRotation = none ∨ ∃ p t, o.instrumentRotation = some p ∧
      h[p]? = some t ∧
      s.numberCameraAngleCoefficientsSolved ≤ t.coef1.length ∧
      s.numberCameraAngleCoefficientsSolved ≤ t.coef2.length ∧
      s.numberCameraAngleCoefficientsSolved ≤ t.coef3.length) :
    ∃ rows o', formatBundleOutputString h o errorPropagation = some (rows, o') ∧
      rows.length = numberParameters s ∧
      parameterList o' = buildParameterNames s ∧
      (parameterList o').length =
        3 * s.numberCameraPositionCoefficientsSolved +
        3 * s.numberCameraAngleCoefficientsSolved ∧
      (∀ i, i < numberParameters s →
        (rows[i]?).map BundleOutputRow.name = (parameterList o')[i]?) := by
  obtain ⟨cp, hcp, lp1, lp2, lp3⟩ := coefBuffers_some hP
  obtain ⟨cr, hcr, lr1, lr2, lr3⟩ := coefBuffers_some hR
  obtain ⟨fPV, hfPV, lfPV⟩ := finalParameterValues_some lp1 lp2 lp3 lr1 lr2 lr3
  have hnames := buildParameterNames_length s
  have hsplit : numberParameters s =
      numberPositionParameters s + numberPointingParameters s := rfl
  have hpp : numberPositionParameters s =
      3 * s.numberCameraPositionCoefficientsSolved := rfl
  have hnp : numberPointingParameters s ≤
      3 * s.numberCameraAngleCoefficientsSolved := by
    unfold numberPointingParameters
    cases ht : s.solveTwist <;> simp [ht] <;> omega
  obtain ⟨rows1, hrows1⟩ := rowsFor_total
    (List.range (numberPositionParameters s)) (fun i hi => by
      rw [List.mem_range] at hi
      obtain ⟨r, hr, _⟩ := positionRowAt_some (buildParameterNames s)
        fPV o.corrections o.aprioriSigmas o.adjustedSigmas errorPropagation i
        (by omega) (by omega) (by omega) (by omega) (by omega)
      exact ⟨r, hr⟩)
  obtain ⟨rows2, hrows2⟩ := rowsFor_total
    (List.range' (numberPositionParameters s) (numberPointingParameters s))
    (fun i hi => by
      rw [List.mem_range'] at hi
      obtain ⟨k, hk, he⟩ := hi
      obtain ⟨r, hr, _⟩ := pointingRowAt_some (buildParameterNames s)
        fPV o.corrections o.aprioriSigmas o.adjustedSigmas errorPropagation i
        (by omega) (by omega) (by omega) (by omega) (by omega)
      exact ⟨r, hr⟩)
  have heq : formatBundleOutputString h o errorPropagation =
      some (rows1 ++ rows2,
        { o with parameterNamesList := buildParameterNames s }) := by
    simp only [formatBundleOutputString, hset, hcp, hcr, hfPV, Option.some_bind]
    rw [hrows1]
    simp only [Option.some_bind]
    rw [hrows2]
    simp only [Option.some_bind]
  obtain ⟨l1, c1⟩ := rowsFor_char hrows1
  obtain ⟨l2, c2⟩ := rowsFor_char hrows2
  rw [List.length_range] at l1
  rw [List.length_range'] at l2
  refine ⟨rows1 ++ rows2, _, heq, ?_, rfl, ?_, ?_⟩
  · rw [List.length_append]
    omega
  · simpa [parameterList] using hnames
  · intro i hi
    by_cases hlt : i < numberPositionParameters s
    · rw [List.getElem?_append_left (by omega)]
      have := c1 i
      rw [List.getElem?_range (by omega)] at this
      rw [this]
      simp only [Option.some_bind]
      obtain ⟨r, hr, hn⟩ := positionRowAt_some (buildParameterNames s)
        fPV o.corrections o.aprioriSigmas o.adjustedSigmas errorPropagation i
        (by omega) (by omega) (by omega) (by omega) (by omega)
      rw [hr]
      simpa [parameterList] using hn.symm
    · rw [List.getElem?_append_right (by omega)]
      have := c2 (i - rows1.length)
      rw [List.getElem?_range' _ _ (by omega)] at this
      rw [this]
      simp only [Option.some_bind]
      have hie : numberPositionParameters s + 1 * (i - rows1.length) = i := by
        omega
      rw [hie]
      obtain ⟨r, hr, hn⟩ := pointingRowAt_some (buildParameterNames s)
        fPV o.corrections o.aprioriSigmas o.adjustedSigmas errorPropagation i
        (by omega) (by omega) (by omega) (by omega) (by omega)
      rw [hr]
      simpa [parameterList] using hn.symm

/-- Observation solving one pointing coefficient (twist off) with no live
trajectory sources, sized by `setSolveSettings` semantics
(`numberParameters = 2`). -/
def pointingOnlyObservation : BundleObservation :=
  { images := [], serialNumbers := [], imageNames := [], parameterNamesList := [],
    observationNumber := "", instrumentId := "",
    instrumentPosition := none, instrumentRotation := none, index := 0,
    weights := [0, 0], corrections := [0, 0],
    aprioriSigmas := [-1, -1], adjustedSigmas := [0, 0],
    solveSettings := some pointingOnlySettings }

/-- The two rows `formatBundleOutputString` emits for
`pointingOnlyObservation` (RA and DEC only). -/
def pointingOnlyRows : List BundleOutputRow :=
  [{ name := paramName " RA  " 0, valueBefore := 0, correction := 0, value := 0,
     sigma := some (-1), adjustedSigma := none },
   { name := paramName "DEC  " 0, valueBefore := 0, correction := 0, value := 0,
     sigma := some (-1), adjustedSigma := none }]

/-- The observation after the report recorded its parameter-name list:
three names, including a Twist name although twist is not solved. -/
def pointingOnlyResultObservation : BundleObservation :=
  { pointingOnlyObservation with parameterNamesList :=
      [paramName " RA  " 0, paramName "DEC  " 0, paramName "TWI  " 0] }

theorem IsSpecial_neg_one : IsSpecial (-1) = false := by
  have hlt : ¬ ((-1 : ℚ) < VALID_MIN8) := by norm_num [VALID_MIN8]
  simp [IsSpecial, hlt]

set_option maxHeartbeats 2000000 in
/-- Evaluation of the report at the pointing-only observation. -/
theorem pointingOnly_eval :
    formatBundleOutputString [] pointingOnlyObservation false =
      some (pointingOnlyRows, pointingOnlyResultObservation) := by
  norm_num [formatBundleOutputString, pointingOnlyObservation, pointingOnlySettings,
    coefBuffers, finalParameterValues, takeCoeffs, buildParameterNames, blockNames,
    rowsFor, positionRowAt, pointingRowAt, adjustedField, IsSpecial_neg_one,
    numberPositionParameters, numberPointingParameters,
    List.range_succ, List.range', pointingOnlyRows, List.replicate,
    pointingOnlyResultObservation]

/-- Counterexample to claim C9: with one pointing coefficient solved and
twist not solved, the report emits exactly `numberParameters() = 2` rows,
but the recorded parameter-name list has three entries — it includes a
Twist name for the unsolved twist parameter, so `parameterList()` is not
one name per solved scalar parameter. -/
theorem C9_counterexample :
    pointingOnlySettings.solveTwist = false ∧
    numberParameters pointingOnlySettings = 2 ∧
    formatBundleOutputString [] pointingOnlyObservation false =
      some (pointingOnlyRows, pointingOnlyResultObservation) ∧
    pointingOnlyRows.length = 2 ∧
    parameterList pointingOnlyResultObservation =
      [paramName " RA  " 0, paramName "DEC  " 0, paramName "TWI  " 0] ∧
    paramName "TWI  " 0 ∈ parameterList pointingOnlyResultObservation ∧
    (parameterList pointingOnlyResultObservation).length ≠
      numberParameters pointingOnlySettings := by
  refine ⟨rfl, rfl, pointingOnly_eval, rfl, rfl,
    by simp [parameterList, pointingOnlyResultObservation, pointingOnlyObservation],
    by decide⟩

/-- Witness for the amended C9 at the pointing-only observation. -/
theorem C9_report_rows_amended_witness :
    ∃ rows o', formatBundleOutputString [] pointingOnlyObservation false =
        some (rows, o') ∧
      rows.length = numberParameters pointingOnlySettings ∧
      parameterList o' = buildParameterNames pointingOnlySettings ∧
      (parameterList o').length =
        3 * pointingOnlySettings.numberCameraPositionCoefficientsSolved +
        3 * pointingOnlySettings.numberCameraAngleCoefficientsSolved ∧
      (∀ i, i < numberParameters pointingOnlySettings →
        (rows[i]?).map BundleOutputRow.name = (parameterList o')[i]?) :=
  C9_report_rows_amended [] pointingOnlyObservation pointingOnlySettings false
    rfl (by decide) (by decide) (by decide) (Or.inl rfl) (Or.inl rfl)

/-- The `i > 0` branch of the loops in
`BundleObservation::initializeExteriorOrientation` (source lines 308–313
and 346–351): set the trajectory's solve degree, override its base time
and time scale to the canonical values, and assign the canonical
coefficient vectors directly — no independent fit. -/
def applyCanonical (b sc : ℚ) (p1 p2 p3 : List ℚ) (solveDegree : ℕ)
    (interp : ℤ) (t : SpiceTrajectory) : SpiceTrajectory :=
  ((t.setPolynomialDegree solveDegree).setOverrideBaseTime b sc).setPolynomialCoeffs
    p1 p2 p3 interp

/-- The `i = 0` branch (source lines 314–331 and 352–367): fit at the
a-priori degree, then re-set the degree down to the solve degree. -/
def firstImagePipeline (fit : SpiceTrajectory → ℤ → SpiceTrajectory)
    (aprioriDegree solveDegree : ℕ) (interp : ℤ) (t : SpiceTrajectory) :
    SpiceTrajectory :=
  ((t.setPolynomialDegree aprioriDegree).fitPolynomial fit
    interp).setPolynomialDegree solveDegree

/-- The `i > 0` iterations of one group loop of
`initializeExteriorOrientation`, with the canonical values fixed after
image 0. -/
def extOrientRestLoop (sel : BundleImage → Option ℕ) (b sc : ℚ)
    (p1 p2 p3 : List ℚ) (solveDegree : ℕ) (interp : ℤ) :
    List BundleImage → SpiceHeap → Option SpiceHeap
  | [], h => some h
  | img :: rest, h =>
    match sel img with
    | none => none
    | some ptr =>
      match h[ptr]? with
      | none => none
      | some t =>
        extOrientRestLoop sel b sc p1 p2 p3 solveDegree interp rest
          (h.set ptr (applyCanonical b sc p1 p2 p3 solveDegree interp t))

/-- The position group of `initializeExteriorOrientation` (source lines
297–333): skipped when position is unsolved; otherwise image 0 is fit and
truncated, the canonical base time / time scale / coefficient vectors are
read back through `m_instrumentPosition` (zeros and empty vectors when it
is null), and every further image receives them. -/
def extOrientPositionGroup (fit : SpiceTrajectory → ℤ → SpiceTrajectory)
    (h : SpiceHeap) (o : BundleObservation)
    (s : BundleObservationSolveSettings) : Option SpiceHeap :=
  if s.instrumentPositionSolveOption =
      InstrumentPositionSolveOption.NoPositionFactors then some h
  else
    match o.images with
    | [] => some h
    | img0 :: rest =>
      match img0.positionPtr with
      | none => none
      | some p0 =>
        match h[p0]? with
        | none => none
        | some t0 =>
          let h0 := h.set p0 (firstImagePipeline fit s.spkDegree
            s.spkSolveDegree s.positionInterpolationType t0)
          match o.instrumentPosition with
          | none =>
            extOrientRestLoop BundleImage.positionPtr 0 0 [] [] []
              s.spkSolveDegree s.positionInterpolationType rest h0
          | some ip =>
            match h0[ip]? with
            | none => none
            | some tip =>
              extOrientRestLoop BundleImage.positionPtr tip.baseTime
                tip.timeScale tip.coef1 tip.coef2 tip.coef3
                s.spkSolveDegree s.positionInterpolationType rest h0

/-- The pointing group of `initializeExteriorOrientation` (source lines
335–369): like the position group, but the canonical values are read
directly from image 0's rotation (the loop-local `spicerotation`
pointer). -/
def extOrientPointingGroup (fit : SpiceTrajectory → ℤ → SpiceTrajectory)
    (h : SpiceHeap) (o : BundleObservation)
    (s : BundleObservationSolveSettings) : Option SpiceHeap :=
  if s.instrumentPointingSolveOption =
      InstrumentPointingSolveOption.NoPointingFactors then some h
  else
    match o.images with
    | [] => some h
    | img0 :: rest =>
      match img0.rotationPtr with
      | none => none
      | some r0 =>
        match h[r0]? with
        | none => none
        | some u0 =>
          let u1 := firstImagePipeline fit s.ckDegree s.ckSolveDegree
            s.pointingInterpolationType u0
          extOrientRestLoop BundleImage.rotationPtr u1.baseTime u1.timeScale
            u1.coef1 u1.coef2 u1.coef3 s.ckSolveDegree
            s.pointingInterpolationType rest (h.set r0 u1)

/-- `BundleObservation::initializeExteriorOrientation` (source lines
295–372): run the position group, then the pointing group; returns `true`.
The a-priori fit of the external trajectory engine is opaque and passed as
`fit`. -/
def initExteriorOrientation (fit : SpiceTrajectory → ℤ → SpiceTrajectory)
    (h : SpiceHeap) (o : BundleObservation) : Option (Bool × SpiceHeap) :=
  match o.solveSettings with
  | none => none
  | some s =>
    (extOrientPositionGroup fit h o s).bind (fun h1 =>
      (extOrientPointingGroup fit h1 o s).map (fun h2 => (true, h2)))

theorem applyCanonical_fields (b sc : ℚ) (p1 p2 p3 : List ℚ) (d : ℕ)
    (it : ℤ) (t : SpiceTrajectory) :
    (applyCanonical b sc p1 p2 p3 d it t).baseTime = b ∧
    (applyCanonical b sc p1 p2 p3 d it t).timeScale = sc ∧
    (applyCanonical b sc p1 p2 p3 d it t).coef1 = p1 ∧
    (applyCanonical b sc p1 p2 p3 d it t).coef2 = p2 ∧
    (applyCanonical b sc p1 p2 p3 d it t).coef3 = p3 :=
  ⟨rfl, rfl, rfl, rfl, rfl⟩

theorem extOrientRestLoop_total_char {sel : BundleImage → Option ℕ}
    {b sc : ℚ} {p1 p2 p3 : List ℚ} {d : ℕ} {it : ℤ} :
    ∀ (imgs : List BundleImage) (h : SpiceHeap),
    (∀ img ∈ imgs, ∃ p t, sel img = some p ∧ h[p]? = some t) →
    ∃ h', extOrientRestLoop sel b sc p1 p2 p3 d it imgs h = some h' ∧
      h'.length = h.length ∧
      (∀ q : ℕ, (∀ img ∈ imgs, sel img ≠ some q) → h'[q]? = h[q]?) ∧
      (∀ img ∈ imgs, ∃ p t, sel img = some p ∧ h'[p]? = some t ∧
        t.baseTime = b ∧ t.timeScale = sc ∧ t.coef1 = p1 ∧ t.coef2 = p2 ∧
        t.coef3 = p3) := by
  intro imgs
  induction imgs with
  | nil =>
    intro h _
    exact ⟨h, rfl, rfl, fun q _ => rfl, fun img hm => absurd hm (by simp)⟩
  | cons img rest ih =>
    intro h hv
    obtain ⟨ptr, t, hpe, hte⟩ := hv img (List.mem_cons_self _ _)
    have hlt : ptr < h.length := by
      by_contra hc
      rw [List.getElem?_eq_none (by omega)] at hte
      exact absurd hte (by simp)
    have hsetv : (h.set ptr (applyCanonical b sc p1 p2 p3 d it t))[ptr]? =
        some (applyCanonical b sc p1 p2 p3 d it t) :=
      List.getElem?_set_eq_of_lt _ hlt
    obtain ⟨h', hloop, hlen, hframe, hval⟩ := ih
      (h.set ptr (applyCanonical b sc p1 p2 p3 d it t))
      (fun img' hm => by
        obtain ⟨p', t', hpe', hte'⟩ := hv img' (List.mem_cons_of_mem _ hm)
        by_cases hpp : p' = ptr
        · subst hpp
          exact ⟨p', _, hpe', hsetv⟩
        · refine ⟨p', t', hpe', ?_⟩
          rw [List.getElem?_set_ne (fun hx => hpp hx.symm)]
          exact hte')
    refine ⟨h', ?_, ?_, ?_, ?_⟩
    · simp only [extOrientRestLoop, hpe, hte]
      exact hloop
    · rw [hlen, List.length_set]
    · intro q hq
      have hq1 : sel img ≠ some q := hq img (List.mem_cons_self _ _)
      have hq2 : ∀ img' ∈ rest, sel img' ≠ some q :=
        fun img' hm => hq img' (List.mem_cons_of_mem _ hm)
      rw [hframe q hq2]
      rw [List.getElem?_set_ne]
      intro hx
      subst hx
      exact hq1 hpe
    · intro img' hm
      rcases List.mem_cons.1 hm with he | hm'
      · subst he
        by_cases hin : ∃ img2 ∈ rest, sel img2 = some ptr
        · obtain ⟨img2, hm2, he2⟩ := hin
          obtain ⟨p2', t2', hpe2, hval2⟩ := hval img2 hm2
          rw [he2] at hpe2
          have hp2 : p2' = ptr := (Option.some.inj hpe2).symm
          subst hp2
          exact ⟨p2', t2', hpe, hval2⟩
        · have hnot : ∀ img2 ∈ rest, sel img2 ≠ some ptr := by
            intro img2 hm2 he2
            exact hin ⟨img2, hm2, he2⟩
          refine ⟨ptr, applyCanonical b sc p1 p2 p3 d it t, hpe, ?_, ?_, ?_, ?_, ?_, ?_⟩
          · rw [hframe ptr hnot]
            exact hsetv
          · exact (applyCanonical_fields b sc p1 p2 p3 d it t).1
          · exact (applyCanonical_fields b sc p1 p2 p3 d it t).2.1
          · exact (applyCanonical_fields b sc p1 p2 p3 d it t).2.2.1
          · exact (applyCanonical_fields b sc p1 p2 p3 d it t).2.2.2.1
          · exact (applyCanonical_fields b sc p1 p2 p3 d it t).2.2.2.2
      · exact hval img' hm'

theorem extOrientPositionGroup_none
    (fit : SpiceTrajectory → ℤ → SpiceTrajectory) (h : SpiceHeap)
    (o : BundleObservation) (s : BundleObservationSolveSettings)
    (hnone : s.instrumentPositionSolveOption =
      InstrumentPositionSolveOption.NoPositionFactors) :
    extOrientPositionGroup fit h o s = some h := by
  unfold extOrientPositionGroup
  rw [if_pos hnone]

theorem extOrientPointingGroup_none
    (fit : SpiceTrajectory → ℤ → SpiceTrajectory) (h : SpiceHeap)
    (o : BundleObservation) (s : BundleObservationSolveSettings)
    (hnone : s.instrumentPointingSolveOption =
      InstrumentPointingSolveOption.NoPointingFactors) :
    extOrientPointingGroup fit h o s = some h := by
  unfold extOrientPointingGroup
  rw [if_pos hnone]

theorem extOrientPositionGroup_char
    (fit : SpiceTrajectory → ℤ → SpiceTrajectory) (h : SpiceHeap)
    (o : BundleObservation) (s : BundleObservationSolveSettings)
    (img0 : BundleImage) (rest : List BundleImage) (p0 : ℕ)
    (hsolved : s.instrumentPositionSolveOption ≠
      InstrumentPositionSolveOption.NoPositionFactors)
    (himgs : o.images = img0 :: rest)
    (hp0 : img0.positionPtr = some p0)
    (hip : o.instrumentPosition = some p0)
    (hv : ∀ img ∈ o.images, ∃ p t, img.positionPtr = some p ∧ h[p]? = some t) :
    ∃ h1, extOrientPositionGroup fit h o s = some h1 ∧ h1.length = h.length ∧
      (∀ q : ℕ, (∀ img ∈ o.images, img.positionPtr ≠ some q) →
        h1[q]? = h[q]?) ∧
      ∃ b sc c1 c2 c3, ∀ img ∈ o.images, ∃ p t, img.positionPtr = some p ∧
        h1[p]? = some t ∧ t.baseTime = b ∧ t.timeScale = sc ∧
        t.coef1 = c1 ∧ t.coef2 = c2 ∧ t.coef3 = c3 := by
  obtain ⟨pp, t0, hpe0, hte0⟩ := hv img0 (by
    rw [himgs]; exact List.mem_cons_self _ _)
  rw [hp0] at hpe0
  have hppq : p0 = pp := Option.some.inj hpe0
  subst hppq
  have hlt : p0 < h.length := by
    by_contra hc
    rw [List.getElem?_eq_none (by omega)] at hte0
    exact absurd hte0 (by simp)
  have hset0 : (h.set p0 (firstImagePipeline fit s.spkDegree s.spkSolveDegree
      s.positionInterpolationType t0))[p0]? =
      some (firstImagePipeline fit s.spkDegree s.spkSolveDegree
        s.positionInterpolationType t0) :=
    List.getElem?_set_eq_of_lt _ hlt
  obtain ⟨h1, hloop, hlen, hframe, hval⟩ := extOrientRestLoop_total_char rest
    (h.set p0 (firstImagePipeline fit s.spkDegree s.spkSolveDegree
      s.positionInterpolationType t0))
    (fun img' hm => by
      obtain ⟨p', t', hpe', hte'⟩ := hv img' (by
        rw [himgs]; exact List.mem_cons_of_mem _ hm)
      by_cases hpp : p' = p0
      · subst hpp
        exact ⟨p', _, hpe', hset0⟩
      · refine ⟨p', t', hpe', ?_⟩
        rw [List.getElem?_set_ne (fun hx => hpp hx.symm)]
        exact hte')
  have hgroup : extOrientPositionGroup fit h o s = some h1 := by
    unfold extOrientPositionGroup
    rw [if_neg hsolved, himgs]
    dsimp only
    rw [hp0]
    dsimp only
    rw [hte0]
    dsimp only
    rw [hip]
    dsimp only
    rw [hset0]
    exact hloop
  refine ⟨h1, hgroup, by rw [hlen, List.length_set], ?_, ?_⟩
  · intro q hq
    have hq1 : img0.positionPtr ≠ some q := hq img0 (by
      rw [himgs]; exact List.mem_cons_self _ _)
    have hq2 : ∀ img' ∈ rest, img'.positionPtr ≠ some q :=
      fun img' hm => hq img' (by rw [himgs]; exact List.mem_cons_of_mem _ hm)
    rw [hframe q hq2]
    rw [List.getElem?_set_ne]
    intro hx
    subst hx
    rw [hp0] at hq1
    exact hq1 rfl
  · refine ⟨(firstImagePipeline fit s.spkDegree s.spkSolveDegree
        s.positionInterpolationType t0).baseTime,
      (firstImagePipeline fit s.spkDegree s.spkSolveDegree
        s.positionInterpolationType t0).timeScale,
      (firstImagePipeline fit s.spkDegree s.spkSolveDegree
        s.positionInterpolationType t0).coef1,
      (firstImagePipeline fit s.spkDegree s.spkSolveDegree
        s.positionInterpolationType t0).coef2,
      (firstImagePipeline fit s.spkDegree s.spkSolveDegree
        s.positionInterpolationType t0).coef3, ?_⟩
    intro img' hm
    rw [himgs] at hm
    rcases List.mem_cons.1 hm with he | hm'
    · subst he
      by_cases hin : ∃ img2 ∈ rest, img2.positionPtr = some p0
      · obtain ⟨img2, hm2, he2⟩ := hin
        obtain ⟨p2', t2', hpe2, hrest⟩ := hval img2 hm2
        rw [he2] at hpe2
        have hp2 : p2' = p0 := (Option.some.inj hpe2).symm
        subst hp2
        exact ⟨p2', t2', hp0, hrest⟩
      · have hnot : ∀ img2 ∈ rest, img2.positionPtr ≠ some p0 := by
          intro img2 hm2 he2
          exact hin ⟨img2, hm2, he2⟩
        refine ⟨p0, firstImagePipeline fit s.spkDegree s.spkSolveDegree
          s.positionInterpolationType t0, hp0, ?_, rfl, rfl, rfl, rfl, rfl⟩
        rw [hframe p0 hnot]
        exact hset0
    · exact hval img' hm'

theorem extOrientPointingGroup_char
    (fit : SpiceTrajectory → ℤ → SpiceTrajectory) (h : SpiceHeap)
    (o : BundleObservation) (s : BundleObservationSolveSettings)
    (img0 : BundleImage) (rest : List BundleImage) (r0 : ℕ)
    (hsolved : s.instrumentPointingSolveOption ≠
      InstrumentPointingSolveOption.NoPointingFactors)
    (himgs : o.images = img0 :: rest)
    (hr0 : img0.rotationPtr = some r0)
    (hv : ∀ img ∈ o.images, ∃ p t, img.rotationPtr = some p ∧ h[p]? = some t) :
    ∃ h1, extOrientPointingGroup fit h o s = some h1 ∧ h1.length = h.length ∧
      (∀ q : ℕ, (∀ img ∈ o.images, img.rotationPtr ≠ some q) →
        h1[q]? = h[q]?) ∧
      ∃ b sc c1 c2 c3, ∀ img ∈ o.images, ∃ p t, img.rotationPtr = some p ∧
        h1[p]? = some t ∧ t.baseTime = b ∧ t.timeScale = sc ∧
        t.coef1 = c1 ∧ t.coef2 = c2 ∧ t.coef3 = c3 := by
  obtain ⟨pp, u0, hpe0, hte0⟩ := hv img0 (by
    rw [himgs]; exact List.mem_cons_self _ _)
  rw [hr0] at hpe0
  have hppq : r0 = pp := Option.some.inj hpe0
  subst hppq
  have hlt : r0 < h.length := by
    by_contra hc
    rw [List.getElem?_eq_none (by omega)] at hte0
    exact absurd hte0 (by simp)
  have hset0 : (h.set r0 (firstImagePipeline fit s.ckDegree s.ckSolveDegree
      s.pointingInterpolationType u0))[r0]? =
      some (firstImagePipeline fit s.ckDegree s.ckSolveDegree
        s.pointingInterpolationType u0) :=
    List.getElem?_set_eq_of_lt _ hlt
  obtain ⟨h1, hloop, hlen, hframe, hval⟩ := extOrientRestLoop_total_char rest
    (h.set r0 (firstImagePipeline fit s.ckDegree s.ckSolveDegree
      s.pointingInterpolationType u0))
    (fun img' hm => by
      obtain ⟨p', t', hpe', hte'⟩ := hv img' (by
        rw [himgs]; exact List.mem_cons_of_mem _ hm)
      by_cases hpp : p' = r0
      · subst hpp
        exact ⟨p', _, hpe', hset0⟩
      · refine ⟨p', t', hpe', ?_⟩
        rw [List.getElem?_set_ne (fun hx => hpp hx.symm)]
        exact hte')
  have hgroup : extOrientPointingGroup fit h o s = some h1 := by
    unfold extOrientPointingGroup
    rw [if_neg hsolved, himgs]
    dsimp only
    rw [hr0]
    dsimp only
    rw [hte0]
    dsimp only
    exact hloop
  refine ⟨h1, hgroup, by rw [hlen, List.length_set], ?_, ?_⟩
  · intro q hq
    have hq1 : img0.rotationPtr ≠ some q := hq img0 (by
      rw [himgs]; exact List.mem_cons_self _ _)
    have hq2 : ∀ img' ∈ rest, img'.rotationPtr ≠ some q :=
      fun img' hm => hq img' (by rw [himgs]; exact List.mem_cons_of_mem _ hm)
    rw [hframe q hq2]
    rw [List.getElem?_set_ne]
    intro hx
    subst hx
    rw [hr0] at hq1
    exact hq1 rfl
  · refine ⟨(firstImagePipeline fit s.ckDegree s.ckSolveDegree
        s.pointingInterpolationType u0).baseTime,
      (firstImagePipeline fit s.ckDegree s.ckSolveDegree
        s.pointingInterpolationType u0).timeScale,
      (firstImagePipeline fit s.ckDegree s.ckSolveDegree
        s.pointingInterpolationType u0).coef1,
      (firstImagePipeline fit s.ckDegree s.ckSolveDegree
        s.pointingInterpolationType u0).coef2,
      (firstImagePipeline fit s.ckDegree s.ckSolveDegree
        s.pointingInterpolationType u0).coef3, ?_⟩
    intro img' hm
    rw [himgs] at hm
    rcases List.mem_cons.1 hm with he | hm'
    · subst he
      by_cases hin : ∃ img2 ∈ rest, img2.rotationPtr = some r0
      · obtain ⟨img2, hm2, he2⟩ := hin
        obtain ⟨p2', t2', hpe2, hrest⟩ := hval img2 hm2
        rw [he2] at hpe2
        have hp2 : p2' = r0 := (Option.some.inj hpe2).symm
        subst hp2
        exact ⟨p2', t2', hr0, hrest⟩
      · have hnot : ∀ img2 ∈ rest, img2.rotationPtr ≠ some r0 := by
          intro img2 hm2 he2
          exact hin ⟨img2, hm2, he2⟩
        refine ⟨r0, firstImagePipeline fit s.ckDegree s.ckSolveDegree
          s.pointingInterpolationType u0, hr0, ?_, rfl, rfl, rfl, rfl, rfl⟩
        rw [hframe r0 hnot]
        exact hset0
    · exact hval img' hm'

/-- Claim C3: for an observation with at least two member images built from
a primary image with live a-priori trajectory data (the canonical
position source is the primary image's), after
`initializeExteriorOrientation` every member image holds the same base
time, the same time scale, and the same three coefficient vectors for the
position group and, separately, for the pointing group — each subsequent
image is assigned the canonical values recorded from the first image, with
no independent fit (the statement holds for every opaque fit function). -/
theorem C3_rigid_shared_trajectory
    (fit : SpiceTrajectory → ℤ → SpiceTrajectory) (h : SpiceHeap)
    (o : BundleObservation) (s : BundleObservationSolveSettings)
    (img0 : BundleImage) (rest : List BundleImage) (p0 r0 : ℕ)
    (hset : o.solveSettings = some s)
    (himgs : o.images = img0 :: rest)
    (hN : 2 ≤ o.images.length)
    (hp0 : img0.positionPtr = some p0)
    (hip : o.instrumentPosition = some p0)
    (hr0 : img0.rotationPtr = some r0)
    (hvp : ∀ img ∈ o.images, ∃ p t, img.positionPtr = some p ∧ h[p]? = some t)
    (hvr : ∀ img ∈ o.images, ∃ p t, img.rotationPtr = some p ∧ h[p]? = some t)
    (hdisj : ∀ img ∈ o.images, ∀ img2 ∈ o.images,
      img.positionPtr ≠ img2.rotationPtr) :
    ∃ h2, initExteriorOrientation fit h o = some (true, h2) ∧
      (s.instrumentPositionSolveOption ≠
          InstrumentPositionSolveOption.NoPositionFactors →
        ∃ b sc c1 c2 c3, ∀ img ∈ o.images, ∃ p t, img.positionPtr = some p ∧
          h2[p]? = some t ∧ t.baseTime = b ∧ t.timeScale = sc ∧
          t.coef1 = c1 ∧ t.coef2 = c2 ∧ t.coef3 = c3) ∧
      (s.instrumentPointingSolveOption ≠
          InstrumentPointingSolveOption.NoPointingFactors →
        ∃ b sc c1 c2 c3, ∀ img ∈ o.images, ∃ p t, img.rotationPtr = some p ∧
          h2[p]? = some t ∧ t.baseTime = b ∧ t.timeScale = sc ∧
          t.coef1 = c1 ∧ t.coef2 = c2 ∧ t.coef3 = c3) := by
  have hstage1 : ∃ h1, extOrientPositionGroup fit h o s = some h1 ∧
      (∀ img ∈ o.images, ∃ p t, img.rotationPtr = some p ∧ h1[p]? = some t) ∧
      (s.instrumentPositionSolveOption ≠
          InstrumentPositionSolveOption.NoPositionFactors →
        ∃ b sc c1 c2 c3, ∀ img ∈ o.images, ∃ p t, img.positionPtr = some p ∧
          h1[p]? = some t ∧ t.baseTime = b ∧ t.timeScale = sc ∧
          t.coef1 = c1 ∧ t.coef2 = c2 ∧ t.coef3 = c3) := by
    by_cases hpos : s.instrumentPositionSolveOption =
        InstrumentPositionSolveOption.NoPositionFactors
    · exact ⟨h, extOrientPositionGroup_none fit h o s hpos, hvr,
        fun hns => absurd hpos hns⟩
    · obtain ⟨h1, he, hlen, hframe, hvalues⟩ :=
        extOrientPositionGroup_char fit h o s img0 rest p0 hpos himgs hp0 hip hvp
      refine ⟨h1, he, ?_, fun _ => hvalues⟩
      intro img2 hm2
      obtain ⟨p', t', hpe', hte'⟩ := hvr img2 hm2
      have hfr := hframe p' (fun img hm => by
        have hne := hdisj img hm img2 hm2
        rw [hpe'] at hne
        exact hne)
      refine ⟨p', t', hpe', ?_⟩
      rw [hfr]
      exact hte'
  obtain ⟨h1, he1, hvr1, hposval⟩ := hstage1
  have hstage2 : ∃ h2, extOrientPointingGroup fit h1 o s = some h2 ∧
      (∀ q : ℕ, (∀ img ∈ o.images, img.rotationPtr ≠ some q) →
        h2[q]? = h1[q]?) ∧
      (s.instrumentPointingSolveOption ≠
          InstrumentPointingSolveOption.NoPointingFactors →
        ∃ b sc c1 c2 c3, ∀ img ∈ o.images, ∃ p t, img.rotationPtr = some p ∧
          h2[p]? = some t ∧ t.baseTime = b ∧ t.timeScale = sc ∧
          t.coef1 = c1 ∧ t.coef2 = c2 ∧ t.coef3 = c3) := by
    by_cases hpnt : s.instrumentPointingSolveOption =
        InstrumentPointingSolveOption.NoPointingFactors
    · exact ⟨h1, extOrientPointingGroup_none fit h1 o s hpnt,
        fun q _ => rfl, fun hns => absurd hpnt hns⟩
    · obtain ⟨h2, he, hlen, hframe, hvalues⟩ :=
        extOrientPointingGroup_char fit h1 o s img0 rest r0 hpnt himgs hr0 hvr1
      exact ⟨h2, he, hframe, fun _ => hvalues⟩
  obtain ⟨h2, he2, hframe2, hpntval⟩ := hstage2
  refine ⟨h2, ?_, ?_, hpntval⟩
  · simp only [initExteriorOrientation, hset, he1, Option.some_bind, he2,
      Option.map_some']
  · intro hns
    obtain ⟨b, sc, c1, c2, c3, hval⟩ := hposval hns
    refine ⟨b, sc, c1, c2, c3, ?_⟩
    intro img hm
    obtain ⟨p, t, hpe, hte, hfields⟩ := hval img hm
    have hfr := hframe2 p (fun img2 hm2 => by
      have hne := hdisj img hm img2 hm2
      rw [hpe] at hne
      intro hx
      exact hne hx.symm)
    refine ⟨p, t, hpe, ?_, hfields⟩
    rw [hfr]
    exact hte

/-- A four-slot arena: two position trajectories and two rotation
trajectories with distinct data. -/
def heapFour : SpiceHeap :=
  [{ baseTime := 1, timeScale := 2, degree := 2, hasPoly := true,
     coef1 := [10], coef2 := [20], coef3 := [30], interpType := 0 },
   { baseTime := 3, timeScale := 4, degree := 2, hasPoly := true,
     coef1 := [11], coef2 := [21], coef3 := [31], interpType := 0 },
   { baseTime := 5, timeScale := 6, degree := 2, hasPoly := true,
     coef1 := [12], coef2 := [22], coef3 := [32], interpType := 0 },
   { baseTime := 7, timeScale := 8, degree := 2, hasPoly := true,
     coef1 := [13], coef2 := [23], coef3 := [33], interpType := 0 }]

/-- A two-image observation whose canonical sources are the first image's
trajectories (arena slots 0 and 2); the second image uses slots 1 and 3. -/
def twoImageObservation : BundleObservation :=
  { images := [{ positionPtr := some 0, rotationPtr := some 2 },
               { positionPtr := some 1, rotationPtr := some 3 }],
    serialNumbers := [], imageNames := [], parameterNamesList := [],
    observationNumber := "", instrumentId := "",
    instrumentPosition := some 0, instrumentRotation := some 2, index := 0,
    weights := [0, 0, 0, 0, 0], corrections := [0, 0, 0, 0, 0],
    aprioriSigmas := [-1, -1, -1, -1, -1], adjustedSigmas := [0, 0, 0, 0, 0],
    solveSettings := some bothSolvedSettings }

/-- Witness for C3 at the two-image observation, with the identity fit. -/
theorem C3_rigid_shared_trajectory_witness :
    ∃ h2, initExteriorOrientation (fun t _ => t) heapFour twoImageObservation =
        some (true, h2) ∧
      (bothSolvedSettings.instrumentPositionSolveOption ≠
          InstrumentPositionSolveOption.NoPositionFactors →
        ∃ b sc c1 c2 c3, ∀ img ∈ twoImageObservation.images, ∃ p t,
          img.positionPtr = some p ∧ h2[p]? = some t ∧ t.baseTime = b ∧
          t.timeScale = sc ∧ t.coef1 = c1 ∧ t.coef2 = c2 ∧ t.coef3 = c3) ∧
      (bothSolvedSettings.instrumentPointingSolveOption ≠
          InstrumentPointingSolveOption.NoPointingFactors →
        ∃ b sc c1 c2 c3, ∀ img ∈ twoImageObservation.images, ∃ p t,
          img.rotationPtr = some p ∧ h2[p]? = some t ∧ t.baseTime = b ∧
          t.timeScale = sc ∧ t.coef1 = c1 ∧ t.coef2 = c2 ∧ t.coef3 = c3) :=
  C3_rigid_shared_trajectory (fun t _ => t) heapFour twoImageObservation
    bothSolvedSettings
    { positionPtr := some 0, rotationPtr := some 2 }
    [{ positionPtr := some 1, rotationPtr := some 3 }] 0 2
    rfl rfl (by decide) rfl rfl rfl
    (by
      intro img hm
      rcases List.mem_cons.1 hm with he | hm2
      · subst he
        exact ⟨0, _, rfl, rfl⟩
      · rcases List.mem_cons.1 hm2 with he | hm3
        · subst he
          exact ⟨1, _, rfl, rfl⟩
        · exact absurd hm3 (by simp))
    (by
      intro img hm
      rcases List.mem_cons.1 hm with he | hm2
      · subst he
        exact ⟨2, _, rfl, rfl⟩
      · rcases List.mem_cons.1 hm2 with he | hm3
        · subst he
          exact ⟨3, _, rfl, rfl⟩
        · exact absurd hm3 (by simp))
    (by decide)

/-- Elementwise addition of flat correction vectors (the `ublas` `+` used
for `c1 + c2`) is associative, pointwise. -/
theorem zipAddAssoc : ∀ (a b c : List ℚ),
    List.zipWith (fun x y => x + y) (List.zipWith (fun x y => x + y) a b) c =
      List.zipWith (fun x y => x + y) a (List.zipWith (fun x y => x + y) b c) := by
  intro a
  induction a with
  | nil => intro b c; simp
  | cons x xs ih =>
    intro b c
    cases b with
    | nil => simp
    | cons y ys =>
      cases c with
      | nil => simp
      | cons z zs => simp [ih, add_assoc]

/-- A successful `addSlice` records its bounds, preserves the coefficient
vector's length, and has the explicit zip-splice form. -/
theorem addSlice_some_facts {coef cs : List ℚ} {start n : ℕ} {R : List ℚ}
    (h : addSlice coef cs start n = some R) :
    n ≤ coef.length ∧ start + n ≤ cs.length ∧ R.length = coef.length ∧
      R = List.zipWith (fun x y => x + y) (coef.take n) ((cs.drop start).take n) ++
        coef.drop n := by
  by_cases hb : n ≤ coef.length ∧ start + n ≤ cs.length
  · rw [addSlice, if_pos hb] at h
    have hR := (Option.some.inj h).symm
    refine ⟨hb.1, hb.2, ?_, hR⟩
    rw [hR]
    simp only [List.length_append, List.length_zipWith, List.length_take,
      List.length_drop]
    omega
  · rw [addSlice, if_neg hb] at h
    exact absurd h (by simp)

/-- `addSlice` succeeds whenever its two bounds hold. -/
theorem addSlice_some_of_bounds {coef cs : List ℚ} {start n : ℕ}
    (hc : n ≤ coef.length) (hs : start + n ≤ cs.length) :
    ∃ R, addSlice coef cs start n = some R :=
  ⟨_, by rw [addSlice, if_pos ⟨hc, hs⟩]⟩

/-- Slice composition: adding the `c1` slice into a coefficient vector and
then the `c2` slice into the result equals adding the single slice of the
elementwise sum `c1 + c2`. -/
theorem addSlice_comp {coef c1 c2 : List ℚ} {start n : ℕ} {R1 R2 : List ℚ}
    (h1 : addSlice coef c1 start n = some R1)
    (h2 : addSlice R1 c2 start n = some R2) :
    addSlice coef (List.zipWith (fun x y => x + y) c1 c2) start n = some R2 := by
  obtain ⟨hc, hs1, hlen1, hR1⟩ := addSlice_some_facts h1
  obtain ⟨-, hs2, -, hR2⟩ := addSlice_some_facts h2
  have hzl : (List.zipWith (fun x y : ℚ => x + y) (coef.take n)
      ((c1.drop start).take n)).length = n := by
    simp only [List.length_zipWith, List.length_take, List.length_drop]
    omega
  have htk : R1.take n = List.zipWith (fun x y : ℚ => x + y) (coef.take n)
      ((c1.drop start).take n) := by
    rw [hR1]; exact List.take_left' hzl
  have hdp : R1.drop n = coef.drop n := by
    rw [hR1]; exact List.drop_left' hzl
  have hs12 : start + n ≤ (List.zipWith (fun x y : ℚ => x + y) c1 c2).length := by
    simp only [List.length_zipWith]; omega
  rw [addSlice, if_pos ⟨hc, hs12⟩]
  congr 1
  rw [hR2, htk, hdp, List.drop_zipWith, List.take_zipWith, zipAddAssoc]

/-- A second `SetPolynomial` completely overrides a first. -/
theorem setPolynomialCoeffs_override (t : SpiceTrajectory)
    (a b c : List ℚ) (i : ℤ) (a2 b2 c2 : List ℚ) (i2 : ℤ) :
    (t.setPolynomialCoeffs a b c i).setPolynomialCoeffs a2 b2 c2 i2 =
      t.setPolynomialCoeffs a2 b2 c2 i2 := rfl

/-- `setPolynomialCoeffs_override` lifted over an optional heap slot. -/
theorem optMap_setCoeffs_override (x : Option SpiceTrajectory)
    (a b c : List ℚ) (i : ℤ) (a2 b2 c2 : List ℚ) (i2 : ℤ) :
    (x.map (fun t => t.setPolynomialCoeffs a b c i)).map
        (fun t => t.setPolynomialCoeffs a2 b2 c2 i2) =
      x.map (fun t => t.setPolynomialCoeffs a2 b2 c2 i2) := by
  cases x <;> rfl

/-- An unsolved position block returns the heap unchanged and index 0. -/
theorem positionBlock_not_solved {h : SpiceHeap} {o : BundleObservation}
    {s : BundleObservationSolveSettings} {cs : List ℚ}
    (hopt : s.instrumentPositionSolveOption =
      InstrumentPositionSolveOption.NoPositionFactors) :
    positionBlock h o s cs = BlockResult.ok (h, 0) := by
  unfold positionBlock
  rw [if_pos hopt]

/-- An unsolved pointing block returns the heap and index unchanged. -/
theorem pointingBlock_not_solved {h : SpiceHeap} {o : BundleObservation}
    {s : BundleObservationSolveSettings} {cs : List ℚ} {idx : ℕ}
    (hopt : s.instrumentPointingSolveOption =
      InstrumentPointingSolveOption.NoPointingFactors) :
    pointingBlock h o s cs idx = BlockResult.ok (h, idx) := by
  unfold pointingBlock
  rw [if_pos hopt]

/-- Characterization of a solved position block: with a live canonical
source holding at least `n` coefficients per axis, all member position
pointers live, and at least `3 n` correction entries, the block succeeds
consuming entries `0 … 3n-1`, and the final heap holds the canonical
updated triple at every member position slot and is untouched elsewhere. -/
theorem positionBlock_solved_char {h : SpiceHeap} {o : BundleObservation}
    {s : BundleObservationSolveSettings} {cs : List ℚ} {p0 : ℕ}
    {t0 : SpiceTrajectory} (n : ℕ)
    (hn : n = s.numberCameraPositionCoefficientsSolved)
    (hopt : s.instrumentPositionSolveOption ≠
      InstrumentPositionSolveOption.NoPositionFactors)
    (hip : o.instrumentPosition = some p0)
    (ht0 : h[p0]? = some t0)
    (hb1 : n ≤ t0.coef1.length) (hb2 : n ≤ t0.coef2.length)
    (hb3 : n ≤ t0.coef3.length) (hcs : 3 * n ≤ cs.length)
    (hv : ∀ ptr ∈ o.images.map BundleImage.positionPtr,
      ∃ p, ptr = some p ∧ p < h.length) :
    ∃ X Y Z h1,
      addSlice t0.coef1 cs 0 n = some X ∧
      addSlice t0.coef2 cs n n = some Y ∧
      addSlice t0.coef3 cs (2 * n) n = some Z ∧
      positionBlock h o s cs = BlockResult.ok (h1, 3 * n) ∧
      h1.length = h.length ∧
      ∀ q, (some q ∈ o.images.map BundleImage.positionPtr →
          h1[q]? = (h[q]?).map (fun t =>
            t.setPolynomialCoeffs X Y Z s.positionInterpolationType)) ∧
        (some q ∉ o.images.map BundleImage.positionPtr → h1[q]? = h[q]?) := by
  obtain ⟨X, hX⟩ : ∃ R, addSlice t0.coef1 cs 0 n = some R :=
    addSlice_some_of_bounds hb1 (by omega)
  obtain ⟨Y, hY⟩ : ∃ R, addSlice t0.coef2 cs n n = some R :=
    addSlice_some_of_bounds hb2 (by omega)
  obtain ⟨Z, hZ⟩ : ∃ R, addSlice t0.coef3 cs (2 * n) n = some R :=
    addSlice_some_of_bounds hb3 (by omega)
  obtain ⟨h1, hbro⟩ : ∃ hh, broadcastPoly h (o.images.map BundleImage.positionPtr)
      X Y Z s.positionInterpolationType = some hh :=
    broadcastPoly_total _ h hv
  obtain ⟨hlen, -, hch⟩ := broadcastPoly_char _ _ _ hbro
  refine ⟨X, Y, Z, h1, hX, hY, hZ, ?_, hlen, hch⟩
  unfold positionBlock
  rw [if_neg hopt, hip]
  dsimp only
  rw [ht0]
  dsimp only
  rw [← hn, hX, Option.some_bind, hY, Option.some_bind, hZ, Option.some_bind,
    hbro]

/-- Characterization of a solved pointing block at flat start index `idx`:
with a live canonical rotation source, live member rotation pointers, and
enough correction entries, the block succeeds consuming the RA and DEC
slices (and the Twist slice exactly when twist is solved), and the final
heap holds the canonical updated triple at every member rotation slot and
is untouched elsewhere. -/
theorem pointingBlock_solved_char {h : SpiceHeap} {o : BundleObservation}
    {s : BundleObservationSolveSettings} {cs : List ℚ} {idx : ℕ} {r0 : ℕ}
    {u0 : SpiceTrajectory} (nA : ℕ)
    (hn : nA = s.numberCameraAngleCoefficientsSolved)
    (hopt : s.instrumentPointingSolveOption ≠
      InstrumentPointingSolveOption.NoPointingFactors)
    (hir : o.instrumentRotation = some r0)
    (hu0 : h[r0]? = some u0)
    (hb1 : nA ≤ u0.coef1.length) (hb2 : nA ≤ u0.coef2.length)
    (hb3 : nA ≤ u0.coef3.length)
    (hcs : idx + 2 * nA + (if s.solveTwist then nA else 0) ≤ cs.length)
    (hv : ∀ ptr ∈ o.images.map BundleImage.rotationPtr,
      ∃ p, ptr = some p ∧ p < h.length) :
    ∃ RA DE TW h1,
      addSlice u0.coef1 cs idx nA = some RA ∧
      addSlice u0.coef2 cs (idx + nA) nA = some DE ∧
      (if s.solveTwist then addSlice u0.coef3 cs (idx + 2 * nA) nA
        else some u0.coef3) = some TW ∧
      pointingBlock h o s cs idx = BlockResult.ok
        (h1, idx + 2 * nA + (if s.solveTwist then nA else 0)) ∧
      h1.length = h.length ∧
      ∀ q, (some q ∈ o.images.map BundleImage.rotationPtr →
          h1[q]? = (h[q]?).map (fun t =>
            t.setPolynomialCoeffs RA DE TW s.pointingInterpolationType)) ∧
        (some q ∉ o.images.map BundleImage.rotationPtr → h1[q]? = h[q]?) := by
  have hcs2 : idx + 2 * nA ≤ cs.length :=
    le_trans (Nat.le_add_right _ _) hcs
  obtain ⟨RA, hRA⟩ : ∃ R, addSlice u0.coef1 cs idx nA = some R :=
    addSlice_some_of_bounds hb1 (by omega)
  obtain ⟨DE, hDE⟩ : ∃ R, addSlice u0.coef2 cs (idx + nA) nA = some R :=
    addSlice_some_of_bounds hb2 (by omega)
  obtain ⟨TW, hTW⟩ : ∃ R, (if s.solveTwist then
      addSlice u0.coef3 cs (idx + 2 * nA) nA else some u0.coef3) = some R := by
    by_cases htw : s.solveTwist
    · rw [if_pos htw]
      rw [if_pos htw] at hcs
      exact addSlice_some_of_bounds hb3 hcs
    · rw [if_neg htw]
      exact ⟨u0.coef3, rfl⟩
  obtain ⟨h1, hbro⟩ : ∃ hh, broadcastPoly h (o.images.map BundleImage.rotationPtr)
      RA DE TW s.pointingInterpolationType = some hh :=
    broadcastPoly_total _ h hv
  obtain ⟨hlen, -, hch⟩ := broadcastPoly_char _ _ _ hbro
  refine ⟨RA, DE, TW, h1, hRA, hDE, hTW, ?_, hlen, hch⟩
  unfold pointingBlock
  rw [if_neg hopt, hir]
  dsimp only
  rw [hu0]
  dsimp only
  rw [← hn, hRA, Option.some_bind, hDE, Option.some_bind, hTW, Option.some_bind,
    hbro]

/-- When both blocks complete normally, `applyParameterCorrections` returns
success with the pointing block's heap and accumulates the whole input
vector into `m_corrections`. -/
theorem applyParameterCorrections_ok {h : SpiceHeap} {o : BundleObservation}
    {s : BundleObservationSolveSettings} {cs : List ℚ}
    {h1 h2 : SpiceHeap} {idx idx2 : ℕ}
    (hset : o.solveSettings = some s)
    (hpb : positionBlock h o s cs = BlockResult.ok (h1, idx))
    (hqb : pointingBlock h1 o s cs idx = BlockResult.ok (h2, idx2))
    (hlen : o.corrections.length = cs.length) :
    applyParameterCorrections h o cs =
      some (true, h2,
        { o with
          corrections := List.zipWith (fun x y => x + y) o.corrections cs }) := by
  have hva : vecAdd o.corrections cs =
      some (List.zipWith (fun x y => x + y) o.corrections cs) := by
    rw [vecAdd, if_pos hlen]
  simp only [applyParameterCorrections, hset, hpb, hqb, hva]

/-- The position block depends only on the observation's canonical position
pointer and member-image list. -/
theorem positionBlock_congr {h : SpiceHeap}
    {s : BundleObservationSolveSettings} {cs : List ℚ}
    {o o2 : BundleObservation}
    (h1 : o.instrumentPosition = o2.instrumentPosition)
    (h2 : o.images = o2.images) :
    positionBlock h o s cs = positionBlock h o2 s cs := by
  unfold positionBlock
  rw [h1, h2]

/-- The pointing block depends only on the observation's canonical rotation
pointer and member-image list. -/
theorem pointingBlock_congr {h : SpiceHeap}
    {s : BundleObservationSolveSettings} {cs : List ℚ} {idx : ℕ}
    {o o2 : BundleObservation}
    (h1 : o.instrumentRotation = o2.instrumentRotation)
    (h2 : o.images = o2.images) :
    pointingBlock h o s cs idx = pointingBlock h o2 s cs idx := by
  unfold pointingBlock
  rw [h1, h2]

/-- Claim C8: additivity of correction application.  For every pair of
correction vectors `c1`, `c2` of the observation's parameter-block length
— under a well-formed aliasing state: each solved block's canonical source
is live, is one of the member images' trajectory slots, does not alias a
slot of the other block, every member pointer of a solved block is live,
and the canonical source holds at least the solved number of coefficients
per axis — applying `c1` and then `c2` via `applyParameterCorrections`
yields exactly the same final trajectory-coefficient heap and the same
`corrections` accumulator as applying the single elementwise sum `c1 + c2`
once. -/
theorem C8_corrections_additive {h : SpiceHeap} {o : BundleObservation}
    {s : BundleObservationSolveSettings} {c1 c2 : List ℚ}
    (hset : o.solveSettings = some s)
    (hc1 : c1.length = numberParameters s)
    (hc2 : c2.length = numberParameters s)
    (hcorr : o.corrections.length = numberParameters s)
    (hpos : s.instrumentPositionSolveOption ≠
        InstrumentPositionSolveOption.NoPositionFactors →
      ∃ p0 t0, o.instrumentPosition = some p0 ∧ h[p0]? = some t0 ∧
        some p0 ∈ o.images.map BundleImage.positionPtr ∧
        some p0 ∉ o.images.map BundleImage.rotationPtr ∧
        s.numberCameraPositionCoefficientsSolved ≤ t0.coef1.length ∧
        s.numberCameraPositionCoefficientsSolved ≤ t0.coef2.length ∧
        s.numberCameraPositionCoefficientsSolved ≤ t0.coef3.length ∧
        (∀ ptr ∈ o.images.map BundleImage.positionPtr,
          ∃ p, ptr = some p ∧ p < h.length))
    (hpnt : s.instrumentPointingSolveOption ≠
        InstrumentPointingSolveOption.NoPointingFactors →
      ∃ r0 u0, o.instrumentRotation = some r0 ∧ h[r0]? = some u0 ∧
        some r0 ∈ o.images.map BundleImage.rotationPtr ∧
        some r0 ∉ o.images.map BundleImage.positionPtr ∧
        s.numberCameraAngleCoefficientsSolved ≤ u0.coef1.length ∧
        s.numberCameraAngleCoefficientsSolved ≤ u0.coef2.length ∧
        s.numberCameraAngleCoefficientsSolved ≤ u0.coef3.length ∧
        (∀ ptr ∈ o.images.map BundleImage.rotationPtr,
          ∃ p, ptr = some p ∧ p < h.length)) :
    ∃ H1 O1 Hf Of,
      applyParameterCorrections h o c1 = some (true, H1, O1) ∧
      applyParameterCorrections H1 O1 c2 = some (true, Hf, Of) ∧
      applyParameterCorrections h o (List.zipWith (fun x y => x + y) c1 c2) =
        some (true, Hf, Of) := by
  have hnp : numberParameters s = 3 * s.numberCameraPositionCoefficientsSolved +
      2 * s.numberCameraAngleCoefficientsSolved +
      (if s.solveTwist then s.numberCameraAngleCoefficientsSolved else 0) := by
    unfold numberParameters numberPositionParameters numberPointingParameters
    by_cases htw : s.solveTwist
    · rw [if_pos htw, if_pos htw]
      omega
    · rw [if_neg htw, if_neg htw]
      omega
  have hc12 : (List.zipWith (fun x y => x + y) c1 c2).length =
      numberParameters s := by
    simp only [List.length_zipWith]
    omega
  by_cases hps : s.instrumentPositionSolveOption =
    InstrumentPositionSolveOption.NoPositionFactors
  · by_cases hpt : s.instrumentPointingSolveOption =
      InstrumentPointingSolveOption.NoPointingFactors
    · -- neither block solves anything: only the accumulator moves
      have happ1 : applyParameterCorrections h o c1 = some (true, h,
          { o with
            corrections := List.zipWith (fun x y => x + y) o.corrections c1 }) :=
        applyParameterCorrections_ok hset
          (positionBlock_not_solved hps) (pointingBlock_not_solved hpt)
          (show o.corrections.length = c1.length by rw [hcorr, hc1])
      have happ12 : applyParameterCorrections h o
          (List.zipWith (fun x y => x + y) c1 c2) = some (true, h,
          { o with
            corrections := List.zipWith (fun x y => x + y) o.corrections
              (List.zipWith (fun x y => x + y) c1 c2) }) :=
        applyParameterCorrections_ok hset
          (positionBlock_not_solved hps) (pointingBlock_not_solved hpt)
          (show o.corrections.length =
            (List.zipWith (fun x y => x + y) c1 c2).length by rw [hcorr, hc12])
      refine ⟨h, _, h, _, happ1,
        applyParameterCorrections_ok hset (positionBlock_not_solved hps)
          (pointingBlock_not_solved hpt) ?_, ?_⟩
      · show (List.zipWith (fun x y => x + y) o.corrections c1).length = c2.length
        simp only [List.length_zipWith]
        omega
      · rw [happ12]
        exact (congrArg (fun v => (some (true, h, { o with corrections := v }) :
          Option (Bool × SpiceHeap × BundleObservation)))
          (zipAddAssoc o.corrections c1 c2)).symm
    · -- pointing solved only
      obtain ⟨r0, u0, hir, hu0, hr0in, hr0nopos, hbr1, hbr2, hbr3, hvR⟩ := hpnt hpt
      have hfz1 : 0 + 2 * s.numberCameraAngleCoefficientsSolved +
          (if s.solveTwist then s.numberCameraAngleCoefficientsSolved else 0) ≤
          c1.length := by
        rw [hc1, hnp]
        omega
      have hfz2 : 0 + 2 * s.numberCameraAngleCoefficientsSolved +
          (if s.solveTwist then s.numberCameraAngleCoefficientsSolved else 0) ≤
          c2.length := by
        rw [hc2, hnp]
        omega
      have hfz12 : 0 + 2 * s.numberCameraAngleCoefficientsSolved +
          (if s.solveTwist then s.numberCameraAngleCoefficientsSolved else 0) ≤
          (List.zipWith (fun x y => x + y) c1 c2).length := by
        rw [hc12, hnp]
        omega
      obtain ⟨RA1, DE1, TW1, H1, hRA1, hDE1, hTW1, hqb1, hlenH1, hchH1⟩ :=
        pointingBlock_solved_char s.numberCameraAngleCoefficientsSolved rfl hpt
          hir hu0 hbr1 hbr2 hbr3 hfz1 hvR
      have happ1 := applyParameterCorrections_ok hset
        (positionBlock_not_solved hps) hqb1 (by rw [hcorr, hc1])
      have hu1 : H1[r0]? = some (u0.setPolynomialCoeffs RA1 DE1 TW1
          s.pointingInterpolationType) := by
        rw [(hchH1 r0).1 hr0in, hu0]
        rfl
      have hlRA1 : RA1.length = u0.coef1.length := (addSlice_some_facts hRA1).2.2.1
      have hlDE1 : DE1.length = u0.coef2.length := (addSlice_some_facts hDE1).2.2.1
      have hlTW1 : TW1.length = u0.coef3.length := by
        by_cases htw : s.solveTwist
        · rw [if_pos htw] at hTW1
          exact (addSlice_some_facts hTW1).2.2.1
        · rw [if_neg htw] at hTW1
          rw [← Option.some.inj hTW1]
      have hbw1 : s.numberCameraAngleCoefficientsSolved ≤
          (u0.setPolynomialCoeffs RA1 DE1 TW1
            s.pointingInterpolationType).coef1.length := by
        show s.numberCameraAngleCoefficientsSolved ≤ RA1.length
        rw [hlRA1]
        exact hbr1
      have hbw2 : s.numberCameraAngleCoefficientsSolved ≤
          (u0.setPolynomialCoeffs RA1 DE1 TW1
            s.pointingInterpolationType).coef2.length := by
        show s.numberCameraAngleCoefficientsSolved ≤ DE1.length
        rw [hlDE1]
        exact hbr2
      have hbw3 : s.numberCameraAngleCoefficientsSolved ≤
          (u0.setPolynomialCoeffs RA1 DE1 TW1
            s.pointingInterpolationType).coef3.length := by
        show s.numberCameraAngleCoefficientsSolved ≤ TW1.length
        rw [hlTW1]
        exact hbr3
      have hvR1 : ∀ ptr ∈ o.images.map BundleImage.rotationPtr,
          ∃ p, ptr = some p ∧ p < H1.length := by
        intro pt hm
        obtain ⟨p, he, hp⟩ := hvR pt hm
        exact ⟨p, he, by rw [hlenH1]; exact hp⟩
      obtain ⟨RA2, DE2, TW2, H2, hRA2, hDE2, hTW2, hqb2, hlenH2, hchH2⟩ :=
        pointingBlock_solved_char s.numberCameraAngleCoefficientsSolved rfl hpt
          hir hu1 hbw1 hbw2 hbw3 hfz2 hvR1
      obtain ⟨RA', DE', TW', H', hRA', hDE', hTW', hqb12, hlenH', hchH'⟩ :=
        pointingBlock_solved_char s.numberCameraAngleCoefficientsSolved rfl hpt
          hir hu0 hbr1 hbr2 hbr3 hfz12 hvR
      have happ12 := applyParameterCorrections_ok hset
        (positionBlock_not_solved hps) hqb12 (by rw [hcorr, hc12])
      have hRAe : RA' = RA2 := Option.some.inj (hRA'.symm.trans
        (addSlice_comp hRA1 (show addSlice RA1 c2 0
          s.numberCameraAngleCoefficientsSolved = some RA2 from hRA2)))
      have hDEe : DE' = DE2 := Option.some.inj (hDE'.symm.trans
        (addSlice_comp hDE1 (show addSlice DE1 c2
          (0 + s.numberCameraAngleCoefficientsSolved)
          s.numberCameraAngleCoefficientsSolved = some DE2 from hDE2)))
      have hTWe : TW' = TW2 := by
        by_cases htw : s.solveTwist
        · rw [if_pos htw] at hTW1 hTW2 hTW'
          exact Option.some.inj (hTW'.symm.trans (addSlice_comp hTW1
            (show addSlice TW1 c2 (0 + 2 * s.numberCameraAngleCoefficientsSolved)
              s.numberCameraAngleCoefficientsSolved = some TW2 from hTW2)))
        · rw [if_neg htw] at hTW1 hTW2 hTW'
          have e1 : u0.coef3 = TW1 := Option.some.inj hTW1
          have e2 : TW1 = TW2 := Option.some.inj hTW2
          have e3 : u0.coef3 = TW' := Option.some.inj hTW'
          exact e3.symm.trans (e1.trans e2)
      have hheap : H' = H2 := by
        subst hRAe hDEe hTWe
        refine List.ext_getElem? (fun q => ?_)
        by_cases hqr : some q ∈ o.images.map BundleImage.rotationPtr
        · rw [(hchH' q).1 hqr, (hchH2 q).1 hqr, (hchH1 q).1 hqr]
          simp only [optMap_setCoeffs_override]
        · rw [(hchH' q).2 hqr, (hchH2 q).2 hqr, (hchH1 q).2 hqr]
      refine ⟨H1, _, H2, _, happ1,
        applyParameterCorrections_ok hset (positionBlock_not_solved hps)
          hqb2 ?_, ?_⟩
      · show (List.zipWith (fun x y => x + y) o.corrections c1).length = c2.length
        simp only [List.length_zipWith]
        omega
      · rw [happ12, hheap]
        exact (congrArg (fun v => (some (true, H2, { o with corrections := v }) :
          Option (Bool × SpiceHeap × BundleObservation)))
          (zipAddAssoc o.corrections c1 c2)).symm
  · by_cases hpt : s.instrumentPointingSolveOption =
      InstrumentPointingSolveOption.NoPointingFactors
    · -- position solved only
      obtain ⟨p0, t0, hip, ht0, hp0in, hp0norot, hbp1, hbp2, hbp3, hvP⟩ := hpos hps
      have h3n1 : 3 * s.numberCameraPositionCoefficientsSolved ≤ c1.length := by
        rw [hc1, hnp]
        omega
      have h3n2 : 3 * s.numberCameraPositionCoefficientsSolved ≤ c2.length := by
        rw [hc2, hnp]
        omega
      have h3n12 : 3 * s.numberCameraPositionCoefficientsSolved ≤
          (List.zipWith (fun x y => x + y) c1 c2).length := by
        rw [hc12, hnp]
        omega
      obtain ⟨X1, Y1, Z1, G1, hX1, hY1, hZ1, hpb1, hlenG1, hchG1⟩ :=
        positionBlock_solved_char s.numberCameraPositionCoefficientsSolved rfl hps
          hip ht0 hbp1 hbp2 hbp3 h3n1 hvP
      have happ1 := applyParameterCorrections_ok hset hpb1
        (pointingBlock_not_solved hpt) (by rw [hcorr, hc1])
      have ht1 : G1[p0]? = some (t0.setPolynomialCoeffs X1 Y1 Z1
          s.positionInterpolationType) := by
        rw [(hchG1 p0).1 hp0in, ht0]
        rfl
      have hlX1 : X1.length = t0.coef1.length := (addSlice_some_facts hX1).2.2.1
      have hlY1 : Y1.length = t0.coef2.length := (addSlice_some_facts hY1).2.2.1
      have hlZ1 : Z1.length = t0.coef3.length := (addSlice_some_facts hZ1).2.2.1
      have hbq1 : s.numberCameraPositionCoefficientsSolved ≤
          (t0.setPolynomialCoeffs X1 Y1 Z1
            s.positionInterpolationType).coef1.length := by
        show s.numberCameraPositionCoefficientsSolved ≤ X1.length
        rw [hlX1]
        exact hbp1
      have hbq2 : s.numberCameraPositionCoefficientsSolved ≤
          (t0.setPolynomialCoeffs X1 Y1 Z1
            s.positionInterpolationType).coef2.length := by
        show s.numberCameraPositionCoefficientsSolved ≤ Y1.length
        rw [hlY1]
        exact hbp2
      have hbq3 : s.numberCameraPositionCoefficientsSolved ≤
          (t0.setPolynomialCoeffs X1 Y1 Z1
            s.positionInterpolationType).coef3.length := by
        show s.numberCameraPositionCoefficientsSolved ≤ Z1.length
        rw [hlZ1]
        exact hbp3
      have hvP1 : ∀ ptr ∈ o.images.map BundleImage.positionPtr,
          ∃ p, ptr = some p ∧ p < G1.length := by
        intro pt hm
        obtain ⟨p, he, hp⟩ := hvP pt hm
        exact ⟨p, he, by rw [hlenG1]; exact hp⟩
      obtain ⟨X2, Y2, Z2, G2, hX2, hY2, hZ2, hpb2, hlenG2, hchG2⟩ :=
        positionBlock_solved_char s.numberCameraPositionCoefficientsSolved rfl hps
          hip ht1 hbq1 hbq2 hbq3 h3n2 hvP1
      obtain ⟨X', Y', Z', G', hX', hY', hZ', hpb12, hlenG', hchG'⟩ :=
        positionBlock_solved_char s.numberCameraPositionCoefficientsSolved rfl hps
          hip ht0 hbp1 hbp2 hbp3 h3n12 hvP
      have happ12 := applyParameterCorrections_ok hset hpb12
        (pointingBlock_not_solved hpt) (by rw [hcorr, hc12])
      have hXe : X' = X2 := Option.some.inj (hX'.symm.trans (addSlice_comp hX1
        (show addSlice X1 c2 0 s.numberCameraPositionCoefficientsSolved = some X2
          from hX2)))
      have hYe : Y' = Y2 := Option.some.inj (hY'.symm.trans (addSlice_comp hY1
        (show addSlice Y1 c2 s.numberCameraPositionCoefficientsSolved
          s.numberCameraPositionCoefficientsSolved = some Y2 from hY2)))
      have hZe : Z' = Z2 := Option.some.inj (hZ'.symm.trans (addSlice_comp hZ1
        (show addSlice Z1 c2 (2 * s.numberCameraPositionCoefficientsSolved)
          s.numberCameraPositionCoefficientsSolved = some Z2 from hZ2)))
      have hheap : G' = G2 := by
        subst hXe hYe hZe
        refine List.ext_getElem? (fun q => ?_)
        by_cases hqp : some q ∈ o.images.map BundleImage.positionPtr
        · rw [(hchG' q).1 hqp, (hchG2 q).1 hqp, (hchG1 q).1 hqp]
          simp only [optMap_setCoeffs_override]
        · rw [(hchG' q).2 hqp, (hchG2 q).2 hqp, (hchG1 q).2 hqp]
      refine ⟨G1, _, G2, _, happ1,
        applyParameterCorrections_ok hset hpb2
          (pointingBlock_not_solved hpt) ?_, ?_⟩
      · show (List.zipWith (fun x y => x + y) o.corrections c1).length = c2.length
        simp only [List.length_zipWith]
        omega
      · rw [happ12, hheap]
        exact (congrArg (fun v => (some (true, G2, { o with corrections := v }) :
          Option (Bool × SpiceHeap × BundleObservation)))
          (zipAddAssoc o.corrections c1 c2)).symm
    · -- both blocks solved
      obtain ⟨p0, t0, hip, ht0, hp0in, hp0norot, hbp1, hbp2, hbp3, hvP⟩ := hpos hps
      obtain ⟨r0, u0, hir, hu0, hr0in, hr0nopos, hbr1, hbr2, hbr3, hvR⟩ := hpnt hpt
      have hfull1 : 3 * s.numberCameraPositionCoefficientsSolved +
          2 * s.numberCameraAngleCoefficientsSolved +
          (if s.solveTwist then s.numberCameraAngleCoefficientsSolved else 0) ≤
          c1.length := by
        rw [hc1, hnp]
      have hfull2 : 3 * s.numberCameraPositionCoefficientsSolved +
          2 * s.numberCameraAngleCoefficientsSolved +
          (if s.solveTwist then s.numberCameraAngleCoefficientsSolved else 0) ≤
          c2.length := by
        rw [hc2, hnp]
      have hfull12 : 3 * s.numberCameraPositionCoefficientsSolved +
          2 * s.numberCameraAngleCoefficientsSolved +
          (if s.solveTwist then s.numberCameraAngleCoefficientsSolved else 0) ≤
          (List.zipWith (fun x y => x + y) c1 c2).length := by
        rw [hc12, hnp]
      have h3n1 : 3 * s.numberCameraPositionCoefficientsSolved ≤ c1.length := by
        rw [hc1, hnp]
        omega
      have h3n2 : 3 * s.numberCameraPositionCoefficientsSolved ≤ c2.length := by
        rw [hc2, hnp]
        omega
      have h3n12 : 3 * s.numberCameraPositionCoefficientsSolved ≤
          (List.zipWith (fun x y => x + y) c1 c2).length := by
        rw [hc12, hnp]
        omega
      obtain ⟨X1, Y1, Z1, G1, hX1, hY1, hZ1, hpb1, hlenG1, hchG1⟩ :=
        positionBlock_solved_char s.numberCameraPositionCoefficientsSolved rfl hps
          hip ht0 hbp1 hbp2 hbp3 h3n1 hvP
      have hu0G1 : G1[r0]? = some u0 := ((hchG1 r0).2 hr0nopos).trans hu0
      have hvR1 : ∀ ptr ∈ o.images.map BundleImage.rotationPtr,
          ∃ p, ptr = some p ∧ p < G1.length := by
        intro pt hm
        obtain ⟨p, he, hp⟩ := hvR pt hm
        exact ⟨p, he, by rw [hlenG1]; exact hp⟩
      obtain ⟨RA1, DE1, TW1, H1, hRA1, hDE1, hTW1, hqb1, hlenH1, hchH1⟩ :=
        pointingBlock_solved_char s.numberCameraAngleCoefficientsSolved rfl hpt
          hir hu0G1 hbr1 hbr2 hbr3 hfull1 hvR1
      have happ1 := applyParameterCorrections_ok hset hpb1 hqb1
        (by rw [hcorr, hc1])
      have hlenH1h : H1.length = h.length := hlenH1.trans hlenG1
      have ht1 : H1[p0]? = some (t0.setPolynomialCoeffs X1 Y1 Z1
          s.positionInterpolationType) := by
        rw [(hchH1 p0).2 hp0norot, (hchG1 p0).1 hp0in, ht0]
        rfl
      have hlX1 : X1.length = t0.coef1.length := (addSlice_some_facts hX1).2.2.1
      have hlY1 : Y1.length = t0.coef2.length := (addSlice_some_facts hY1).2.2.1
      have hlZ1 : Z1.length = t0.coef3.length := (addSlice_some_facts hZ1).2.2.1
      have hbq1 : s.numberCameraPositionCoefficientsSolved ≤
          (t0.setPolynomialCoeffs X1 Y1 Z1
            s.positionInterpolationType).coef1.length := by
        show s.numberCameraPositionCoefficientsSolved ≤ X1.length
        rw [hlX1]
        exact hbp1
      have hbq2 : s.numberCameraPositionCoefficientsSolved ≤
          (t0.setPolynomialCoeffs X1 Y1 Z1
            s.positionInterpolationType).coef2.length := by
        show s.numberCameraPositionCoefficientsSolved ≤ Y1.length
        rw [hlY1]
        exact hbp2
      have hbq3 : s.numberCameraPositionCoefficientsSolved ≤
          (t0.setPolynomialCoeffs X1 Y1 Z1
            s.positionInterpolationType).coef3.length := by
        show s.numberCameraPositionCoefficientsSolved ≤ Z1.length
        rw [hlZ1]
        exact hbp3
      have hvP1 : ∀ ptr ∈ o.images.map BundleImage.positionPtr,
          ∃ p, ptr = some p ∧ p < H1.length := by
        intro pt hm
        obtain ⟨p, he, hp⟩ := hvP pt hm
        exact ⟨p, he, by rw [hlenH1h]; exact hp⟩
      obtain ⟨X2, Y2, Z2, G2, hX2, hY2, hZ2, hpb2, hlenG2, hchG2⟩ :=
        positionBlock_solved_char s.numberCameraPositionCoefficientsSolved rfl hps
          hip ht1 hbq1 hbq2 hbq3 h3n2 hvP1
      have hu1 : G2[r0]? = some (u0.setPolynomialCoeffs RA1 DE1 TW1
          s.pointingInterpolationType) := by
        rw [(hchG2 r0).2 hr0nopos, (hchH1 r0).1 hr0in, (hchG1 r0).2 hr0nopos, hu0]
        rfl
      have hlRA1 : RA1.length = u0.coef1.length := (addSlice_some_facts hRA1).2.2.1
      have hlDE1 : DE1.length = u0.coef2.length := (addSlice_some_facts hDE1).2.2.1
      have hlTW1 : TW1.length = u0.coef3.length := by
        by_cases htw : s.solveTwist
        · rw [if_pos htw] at hTW1
          exact (addSlice_some_facts hTW1).2.2.1
        · rw [if_neg htw] at hTW1
          rw [← Option.some.inj hTW1]
      have hbw1 : s.numberCameraAngleCoefficientsSolved ≤
          (u0.setPolynomialCoeffs RA1 DE1 TW1
            s.pointingInterpolationType).coef1.length := by
        show s.numberCameraAngleCoefficientsSolved ≤ RA1.length
        rw [hlRA1]
        exact hbr1
      have hbw2 : s.numberCameraAngleCoefficientsSolved ≤
          (u0.setPolynomialCoeffs RA1 DE1 TW1
            s.pointingInterpolationType).coef2.length := by
        show s.numberCameraAngleCoefficientsSolved ≤ DE1.length
        rw [hlDE1]
        exact hbr2
      have hbw3 : s.numberCameraAngleCoefficientsSolved ≤
          (u0.setPolynomialCoeffs RA1 DE1 TW1
            s.pointingInterpolationType).coef3.length := by
        show s.numberCameraAngleCoefficientsSolved ≤ TW1.length
        rw [hlTW1]
        exact hbr3
      have hvR2 : ∀ ptr ∈ o.images.map BundleImage.rotationPtr,
          ∃ p, ptr = some p ∧ p < G2.length := by
        intro pt hm
        obtain ⟨p, he, hp⟩ := hvR pt hm
        exact ⟨p, he, by rw [hlenG2, hlenH1h]; exact hp⟩
      obtain ⟨RA2, DE2, TW2, H2, hRA2, hDE2, hTW2, hqb2, hlenH2, hchH2⟩ :=
        pointingBlock_solved_char s.numberCameraAngleCoefficientsSolved rfl hpt
          hir hu1 hbw1 hbw2 hbw3 hfull2 hvR2
      obtain ⟨X', Y', Z', G', hX', hY', hZ', hpb12, hlenG', hchG'⟩ :=
        positionBlock_solved_char s.numberCameraPositionCoefficientsSolved rfl hps
          hip ht0 hbp1 hbp2 hbp3 h3n12 hvP
      have hu0G' : G'[r0]? = some u0 := ((hchG' r0).2 hr0nopos).trans hu0
      have hvR12 : ∀ ptr ∈ o.images.map BundleImage.rotationPtr,
          ∃ p, ptr = some p ∧ p < G'.length := by
        intro pt hm
        obtain ⟨p, he, hp⟩ := hvR pt hm
        exact ⟨p, he, by rw [hlenG']; exact hp⟩
      obtain ⟨RA', DE', TW', H', hRA', hDE', hTW', hqb12, hlenH', hchH'⟩ :=
        pointingBlock_solved_char s.numberCameraAngleCoefficientsSolved rfl hpt
          hir hu0G' hbr1 hbr2 hbr3 hfull12 hvR12
      have happ12 := applyParameterCorrections_ok hset hpb12 hqb12
        (by rw [hcorr, hc12])
      have hXe : X' = X2 := Option.some.inj (hX'.symm.trans (addSlice_comp hX1
        (show addSlice X1 c2 0 s.numberCameraPositionCoefficientsSolved = some X2
          from hX2)))
      have hYe : Y' = Y2 := Option.some.inj (hY'.symm.trans (addSlice_comp hY1
        (show addSlice Y1 c2 s.numberCameraPositionCoefficientsSolved
          s.numberCameraPositionCoefficientsSolved = some Y2 from hY2)))
      have hZe : Z' = Z2 := Option.some.inj (hZ'.symm.trans (addSlice_comp hZ1
        (show addSlice Z1 c2 (2 * s.numberCameraPositionCoefficientsSolved)
          s.numberCameraPositionCoefficientsSolved = some Z2 from hZ2)))
      have hRAe : RA' = RA2 := Option.some.inj (hRA'.symm.trans
        (addSlice_comp hRA1 (show addSlice RA1 c2
          (3 * s.numberCameraPositionCoefficientsSolved)
          s.numberCameraAngleCoefficientsSolved = some RA2 from hRA2)))
      have hDEe : DE' = DE2 := Option.some.inj (hDE'.symm.trans
        (addSlice_comp hDE1 (show addSlice DE1 c2
          (3 * s.numberCameraPositionCoefficientsSolved +
            s.numberCameraAngleCoefficientsSolved)
          s.numberCameraAngleCoefficientsSolved = some DE2 from hDE2)))
      have hTWe : TW' = TW2 := by
        by_cases htw : s.solveTwist
        · rw [if_pos htw] at hTW1 hTW2 hTW'
          exact Option.some.inj (hTW'.symm.trans (addSlice_comp hTW1
            (show addSlice TW1 c2
              (3 * s.numberCameraPositionCoefficientsSolved +
                2 * s.numberCameraAngleCoefficientsSolved)
              s.numberCameraAngleCoefficientsSolved = some TW2 from hTW2)))
        · rw [if_neg htw] at hTW1 hTW2 hTW'
          have e1 : u0.coef3 = TW1 := Option.some.inj hTW1
          have e2 : TW1 = TW2 := Option.some.inj hTW2
          have e3 : u0.coef3 = TW' := Option.some.inj hTW'
          exact e3.symm.trans (e1.trans e2)
      have hheap : H' = H2 := by
        subst hXe hYe hZe hRAe hDEe hTWe
        refine List.ext_getElem? (fun q => ?_)
        by_cases hqr : some q ∈ o.images.map BundleImage.rotationPtr
        · rw [(hchH' q).1 hqr, (hchH2 q).1 hqr]
          by_cases hqp : some q ∈ o.images.map BundleImage.positionPtr
          · rw [(hchG' q).1 hqp, (hchG2 q).1 hqp, (hchH1 q).1 hqr,
              (hchG1 q).1 hqp]
            simp only [optMap_setCoeffs_override]
          · rw [(hchG' q).2 hqp, (hchG2 q).2 hqp, (hchH1 q).1 hqr,
              (hchG1 q).2 hqp]
            simp only [optMap_setCoeffs_override]
        · rw [(hchH' q).2 hqr, (hchH2 q).2 hqr]
          by_cases hqp : some q ∈ o.images.map BundleImage.positionPtr
          · rw [(hchG' q).1 hqp, (hchG2 q).1 hqp, (hchH1 q).2 hqr,
              (hchG1 q).1 hqp]
            simp only [optMap_setCoeffs_override]
          · rw [(hchG' q).2 hqp, (hchG2 q).2 hqp, (hchH1 q).2 hqr,
              (hchG1 q).2 hqp]
      refine ⟨H1, _, H2, _, happ1,
        applyParameterCorrections_ok hset hpb2 hqb2 ?_, ?_⟩
      · show (List.zipWith (fun x y => x + y) o.corrections c1).length = c2.length
        simp only [List.length_zipWith]
        omega
      · rw [happ12, hheap]
        exact (congrArg (fun v => (some (true, H2, { o with corrections := v }) :
          Option (Bool × SpiceHeap × BundleObservation)))
          (zipAddAssoc o.corrections c1 c2)).symm

/-- A live position trajectory (arena slot 0 of the C8 witness heap). -/
def posTrajC8 : SpiceTrajectory :=
  { baseTime := 0, timeScale := 1, degree := 0, hasPoly := true,
    coef1 := [10], coef2 := [20], coef3 := [30], interpType := 0 }

/-- A live rotation trajectory (arena slot 1 of the C8 witness heap). -/
def rotTrajC8 : SpiceTrajectory :=
  { baseTime := 0, timeScale := 1, degree := 0, hasPoly := true,
    coef1 := [40], coef2 := [50], coef3 := [60], interpType := 0 }

/-- A one-image observation solving position and pointing whose canonical
position and rotation sources are the image's own live, distinct
trajectory slots, with a parameter-block-sized corrections accumulator. -/
def bothLiveObservation : BundleObservation :=
  { images := [{ positionPtr := some 0, rotationPtr := some 1 }],
    serialNumbers := [], imageNames := [], parameterNamesList := [],
    observationNumber := "", instrumentId := "",
    instrumentPosition := some 0, instrumentRotation := some 1, index := 0,
    weights := [0, 0, 0, 0, 0], corrections := [0, 0, 0, 0, 0],
    aprioriSigmas := [-1, -1, -1, -1, -1], adjustedSigmas := [0, 0, 0, 0, 0],
    solveSettings := some bothSolvedSettings }

/-- Witness for C8 at a concrete two-trajectory, one-image input: applying
`[1,2,3,4,5]` then `[10,20,30,40,50]` gives the same final heap and
accumulator as applying their elementwise sum once. -/
theorem C8_corrections_additive_witness :
    ∃ H1 O1 Hf Of,
      applyParameterCorrections [posTrajC8, rotTrajC8] bothLiveObservation
        [1, 2, 3, 4, 5] = some (true, H1, O1) ∧
      applyParameterCorrections H1 O1 [10, 20, 30, 40, 50] =
        some (true, Hf, Of) ∧
      applyParameterCorrections [posTrajC8, rotTrajC8] bothLiveObservation
        (List.zipWith (fun x y => x + y) [1, 2, 3, 4, 5]
          [10, 20, 30, 40, 50]) = some (true, Hf, Of) :=
  C8_corrections_additive
    (show bothLiveObservation.solveSettings = some bothSolvedSettings from rfl)
    rfl rfl rfl
    (fun _ => ⟨0, posTrajC8, rfl, rfl, by decide, by decide, by decide,
      by decide, by decide, by
        intro pt hm
        have he : pt = some 0 := by
          simpa [bothLiveObservation] using hm
        exact ⟨0, he, by decide⟩⟩)
    (fun _ => ⟨1, rotTrajC8, rfl, rfl, by decide, by decide, by decide,
      by decide, by decide, by
        intro pt hm
        have he : pt = some 1 := by
          simpa [bothLiveObservation] using hm
        exact ⟨1, he, by decide⟩⟩)
